import Mathlib

/-!
# j2k: joystick to keyboard emulator

A shallow embedding of `j2k.go` and `internal/joystick2keyboard/emulator.go`
and the properties of the key state machine, the report decoder and the
stick processing.

Conventions of the embedding.

* `keybd_event.VK_*` are constants of the external keyboard library; they are
  taken as a parameter `vk : keybd_event`.
* The Go map `map[int]bool` is a function `Int → Option Bool` (`none`: no entry).
  Reading `m[k]` gives `false` for a key without an entry, assignment adds or
  overwrites the entry.
* The keyboard handle `kb` is the log of the events sent through it:
  `kb.SetKeys(key); kb.Press()` appends `press key`, and
  `kb.SetKeys(key); kb.Release()` appends `release key`.
* The mutex and the diagnostic printing are not part of the model.
* `float64` arithmetic is read over the real numbers. The stick methods take
  a square root and compare reals, so they, and the loop body of `j2k.go`
  that calls them, are `noncomputable`; every other definition evaluates.
-/

namespace J2K

/-! ## Data model -/

/-- The key code constants of the keyboard library that the program names. -/
structure keybd_event where
  VK_A : Int
  VK_D : Int
  VK_W : Int
  VK_S : Int
  VK_J : Int
  VK_L : Int
  VK_I : Int
  VK_K : Int
  VK_UP : Int
  VK_DOWN : Int
  VK_LEFT : Int
  VK_RIGHT : Int
  VK_SPACE : Int
  VK_E : Int
  VK_Q : Int
  VK_F : Int
  VK_R : Int
  VK_T : Int
  VK_Y : Int
  VK_U : Int
  VK_TAB : Int
  VK_ENTER : Int

/-- A sample assignment of the key codes (the Linux input event codes). -/
def linuxKeys : keybd_event where
  VK_A := 30
  VK_D := 32
  VK_W := 17
  VK_S := 31
  VK_J := 36
  VK_L := 38
  VK_I := 23
  VK_K := 37
  VK_UP := 103
  VK_DOWN := 108
  VK_LEFT := 105
  VK_RIGHT := 106
  VK_SPACE := 57
  VK_E := 18
  VK_Q := 16
  VK_F := 33
  VK_R := 19
  VK_T := 20
  VK_Y := 21
  VK_U := 22
  VK_TAB := 15
  VK_ENTER := 28

/-- The key code constants that the program names, in the order of the
structure. -/
def keybd_event.codes (vk : keybd_event) : List Int :=
  [vk.VK_A, vk.VK_D, vk.VK_W, vk.VK_S, vk.VK_J, vk.VK_L, vk.VK_I, vk.VK_K, vk.VK_UP,
   vk.VK_DOWN, vk.VK_LEFT, vk.VK_RIGHT, vk.VK_SPACE, vk.VK_E, vk.VK_Q, vk.VK_F, vk.VK_R,
   vk.VK_T, vk.VK_Y, vk.VK_U, vk.VK_TAB, vk.VK_ENTER]

/-- The key code constants are pairwise distinct. -/
def keybd_event.Distinct (vk : keybd_event) : Prop := vk.codes.Nodup

instance (vk : keybd_event) : Decidable vk.Distinct := by
  unfold keybd_event.Distinct
  infer_instance

/-- An event sent to the keyboard sink. -/
inductive KeyEvent where
  | press (key : Int)
  | release (key : Int)
  deriving DecidableEq, Repr

/-- The key code an event is about. -/
def KeyEvent.key : KeyEvent → Int
  | .press k => k
  | .release k => k

/-- Whether the event is a press. -/
def KeyEvent.isPress : KeyEvent → Bool
  | .press _ => true
  | .release _ => false

/-- The Go type `map[int]bool`. -/
def ButtonStates := Int → Option Bool

/-- The map `make(map[int]bool)`. -/
def ButtonStates.empty : ButtonStates := fun _ => none

/-- The read `m[k]`: the zero value `false` when `k` has no entry. -/
def ButtonStates.get (m : ButtonStates) (k : Int) : Bool := (m k).getD false

/-- The assignment `m[k] = v`. -/
def ButtonStates.set (m : ButtonStates) (k : Int) (v : Bool) : ButtonStates :=
  fun k' => if k' = k then some v else m k'

/-- The struct `Joystick2Keyboard` of `j2k.go`. -/
structure Joystick2Keyboard where
  running : Bool
  deadzone : ℚ
  keyMappings : List (String × Int)
  buttonStates : ButtonStates
  kb : List KeyEvent

/-- The struct `ControllerState`: `buttons` is a `uint16`, the four axes are
`int16`, the triggers are `uint8`. -/
structure ControllerState where
  buttons : Nat
  leftX : Int
  leftY : Int
  rightX : Int
  rightY : Int
  trigL : Nat
  trigR : Nat
  deriving DecidableEq, Repr

/-! ## Construction -/

/-- The map literal `keyMappings` of `NewJoystick2Keyboard`, in source order. -/
def defaultKeyMappings (vk : keybd_event) : List (String × Int) :=
  [ ("lstick_left", vk.VK_A),
    ("lstick_right", vk.VK_D),
    ("lstick_up", vk.VK_W),
    ("lstick_down", vk.VK_S),
    ("rstick_left", vk.VK_J),
    ("rstick_right", vk.VK_L),
    ("rstick_up", vk.VK_I),
    ("rsdown", vk.VK_K),
    ("dpad_up", vk.VK_UP),
    ("dpad_down", vk.VK_DOWN),
    ("dpad_left", vk.VK_LEFT),
    ("dpad_right", vk.VK_RIGHT),
    ("a", vk.VK_SPACE),
    ("b", vk.VK_E),
    ("y", vk.VK_Q),
    ("x", vk.VK_F),
    ("rbutton", vk.VK_R),
    ("lbutton", vk.VK_T),
    ("rtrigger", vk.VK_Y),
    ("ltrigger", vk.VK_U),
    ("select", vk.VK_TAB),
    ("start", vk.VK_ENTER),
    ("lstick_click", vk.VK_L),
    ("rstick_click", vk.VK_R) ]

/-- The loop `for _, key := range keyMappings { buttonStates[key] = false }`
over a fresh map. -/
def initButtonStates (keyMappings : List (String × Int)) : ButtonStates :=
  keyMappings.foldl (fun m entry => m.set entry.2 false) ButtonStates.empty

/-- The struct that `NewJoystick2Keyboard` returns when the keyboard opens. -/
def initialState (vk : keybd_event) : Joystick2Keyboard where
  running := true
  deadzone := 0.2
  keyMappings := defaultKeyMappings vk
  buttonStates := initButtonStates (defaultKeyMappings vk)
  kb := []

/-- The constructor `NewJoystick2Keyboard`; `kbErr` is the error of
`keybd_event.NewKeyBonding()`, if any. -/
def NewJoystick2Keyboard (vk : keybd_event) (kbErr : Option String) :
    Except String Joystick2Keyboard :=
  match kbErr with
  | some err => .error ("failed to initialize keyboard: " ++ err)
  | none => .ok (initialState vk)

/-! ## Key state machine -/

/-- The method `updateKeyState`. -/
def updateKeyState (j : Joystick2Keyboard) (buttonName : String) (pressed : Bool) :
    Joystick2Keyboard :=
  match j.keyMappings.lookup buttonName with
  | some key =>
    if pressed && !j.buttonStates.get key then
      { j with kb := j.kb ++ [KeyEvent.press key],
               buttonStates := j.buttonStates.set key true }
    else if !pressed && j.buttonStates.get key then
      { j with kb := j.kb ++ [KeyEvent.release key],
               buttonStates := j.buttonStates.set key false }
    else j
  | none => j

/-- One iteration of the loop of `Stop` at the entry of `key`; the loop
variable `pressed` is the value of that entry. -/
def stopStep (j : Joystick2Keyboard) (key : Int) : Joystick2Keyboard :=
  match j.buttonStates key with
  | some true =>
    { j with kb := j.kb ++ [KeyEvent.release key],
             buttonStates := j.buttonStates.set key false }
  | _ => j

/-- The order in which a `range` loop visits the entries of a map is not
specified: `order` is any enumeration of the keys that have an entry, each
once. -/
def RangeOrder (m : ButtonStates) (order : List Int) : Prop :=
  order.Nodup ∧ ∀ k, k ∈ order ↔ (m k).isSome = true

/-- The method `Stop`, its `range` loop visiting the keys in `order`. -/
def Stop (j : Joystick2Keyboard) (order : List Int) : Joystick2Keyboard :=
  order.foldl stopStep { j with running := false }

/-! ## Call sequences and traces -/

/-- A call of one of the two methods that touch the key state; `Stop` comes
with the order in which its `range` loop visits the entries. -/
inductive Call where
  | updateKeyState (buttonName : String) (pressed : Bool)
  | Stop (order : List Int)

/-- Perform one call. -/
def Call.apply (j : Joystick2Keyboard) : Call → Joystick2Keyboard
  | .updateKeyState buttonName pressed => J2K.updateKeyState j buttonName pressed
  | .Stop order => J2K.Stop j order

/-- Perform a sequence of calls, first to last. -/
def runCalls (j : Joystick2Keyboard) (calls : List Call) : Joystick2Keyboard :=
  calls.foldl Call.apply j

/-- The events of the log that are about the key code `k`, in order. -/
def eventsFor (k : Int) (log : List KeyEvent) : List KeyEvent :=
  log.filter (fun e => e.key == k)

/-- The strictly alternating sequence `press k, release k, press k, ...` of
length `n`, which begins with a press. -/
def alternation (k : Int) : Nat → List KeyEvent
  | 0 => []
  | n + 1 => alternation k n ++ [if n % 2 = 0 then KeyEvent.press k else KeyEvent.release k]

/-- The key codes that read as pressed. -/
def pressedKeys (m : ButtonStates) : Set Int := {k | m.get k = true}

/-- Every value of `keyMappings` has an entry in `buttonStates`. -/
def MappedKeysHaveEntry (j : Joystick2Keyboard) : Prop :=
  ∀ name k, j.keyMappings.lookup name = some k → (j.buttonStates k).isSome = true

/-- The events for `k` alternate from a press and the key reads as pressed
exactly when their number is odd. -/
def TraceAgrees (j : Joystick2Keyboard) (k : Int) : Prop :=
  ∃ n, eventsFor k j.kb = alternation k n ∧ j.buttonStates.get k = decide (n % 2 = 1)

/-! ## Report decoding -/

/-- The function `binary.LittleEndian.Uint16`: `uint16(b[0]) | uint16(b[1])<<8`. -/
def LittleEndian.Uint16 (b : List Nat) : Nat :=
  b.getD 0 0 ||| (b.getD 1 0 <<< 8)

/-- The Go slice expression `b[lo:hi]`. -/
def slice (b : List Nat) (lo hi : Nat) : List Nat :=
  (b.drop lo).take (hi - lo)

/-- The conversion `int16(u)` of a `uint16`: two's complement. -/
def int16 (u : Nat) : Int :=
  if u % 65536 < 32768 then ((u % 65536 : Nat) : Int) else ((u % 65536 : Nat) : Int) - 65536

/-- The decoding of `buffer` into a `ControllerState` in `Run` of `j2k.go`. -/
def decodeState (buffer : List Nat) : ControllerState where
  buttons := LittleEndian.Uint16 (slice buffer 0 2)
  leftX := int16 (LittleEndian.Uint16 (slice buffer 2 4))
  leftY := int16 (LittleEndian.Uint16 (slice buffer 4 6))
  rightX := int16 (LittleEndian.Uint16 (slice buffer 6 8))
  rightY := int16 (LittleEndian.Uint16 (slice buffer 8 10))
  trigL := buffer.getD 10 0
  trigR := buffer.getD 11 0

/-- Every element is a byte. -/
def IsBytes (b : List Nat) : Prop := ∀ x ∈ b, x < 256

instance (b : List Nat) : Decidable (IsBytes b) := by
  unfold IsBytes
  infer_instance

/-- The fields are in the range of their Go types. -/
def ControllerState.InRange (s : ControllerState) : Prop :=
  s.buttons < 65536 ∧
  (-32768 ≤ s.leftX ∧ s.leftX ≤ 32767) ∧ (-32768 ≤ s.leftY ∧ s.leftY ≤ 32767) ∧
  (-32768 ≤ s.rightX ∧ s.rightX ≤ 32767) ∧ (-32768 ≤ s.rightY ∧ s.rightY ≤ 32767) ∧
  s.trigL < 256 ∧ s.trigR < 256

instance (s : ControllerState) : Decidable s.InRange := by
  unfold ControllerState.InRange
  infer_instance

/-- The byte offsets of the buffer that each field of `decodeState` reads, in
the order `buttons`, `leftX`, `leftY`, `rightX`, `rightY`, `trigL`, `trigR`. -/
def fieldOffsets : List (List Nat) :=
  [[0, 1], [2, 3], [4, 5], [6, 7], [8, 9], [10], [11]]

/-- The fields of a `ControllerState`, in the order of the struct. -/
def ControllerState.fields (s : ControllerState) : List Int :=
  [(s.buttons : Int), s.leftX, s.leftY, s.rightX, s.rightY, (s.trigL : Int), (s.trigR : Int)]

/-! ## Stick and button processing -/

/-- The method `normalizeAxis`. -/
noncomputable def normalizeAxis (value : Int) : ℝ :=
  (value : ℝ) / 32768.0

/-- The method `processLeftStick`. -/
noncomputable def processLeftStick (j : Joystick2Keyboard) (x y : ℝ) : Joystick2Keyboard :=
  let magnitude := Real.sqrt (x * x + y * y)
  let x1 := if magnitude < (j.deadzone : ℝ) then 0 else x
  let y1 := if magnitude < (j.deadzone : ℝ) then 0 else y
  let x2 := if magnitude > 0 then x1 / magnitude else x1
  let y2 := if magnitude > 0 then y1 / magnitude else y1
  let j := updateKeyState j "lstick_left" (decide (x2 < -0.5))
  let j := updateKeyState j "lstick_right" (decide (x2 > 0.5))
  let j := updateKeyState j "lstick_up" (decide (y2 < -0.5))
  updateKeyState j "lstick_down" (decide (y2 > 0.5))

/-- The method `processRightStick`. -/
noncomputable def processRightStick (j : Joystick2Keyboard) (x y : ℝ) : Joystick2Keyboard :=
  let magnitude := Real.sqrt (x * x + y * y)
  let x1 := if magnitude < (j.deadzone : ℝ) then 0 else x
  let y1 := if magnitude < (j.deadzone : ℝ) then 0 else y
  let x2 := if magnitude > 0 then x1 / magnitude else x1
  let y2 := if magnitude > 0 then y1 / magnitude else y1
  let j := updateKeyState j "rstick_left" (decide (x2 < -0.5))
  let j := updateKeyState j "rstick_right" (decide (x2 > 0.5))
  let j := updateKeyState j "rstick_up" (decide (y2 < -0.5))
  updateKeyState j "rstick_down" (decide (y2 > 0.5))

/-- The method `processButtons` of `j2k.go`. -/
def processButtons (j : Joystick2Keyboard) (buttons : Nat) : Joystick2Keyboard :=
  let j := updateKeyState j "dpad_up" ((buttons &&& 0x0001) != 0)
  let j := updateKeyState j "dpad_down" ((buttons &&& 0x0002) != 0)
  let j := updateKeyState j "dpad_left" ((buttons &&& 0x0004) != 0)
  let j := updateKeyState j "dpad_right" ((buttons &&& 0x0008) != 0)
  let j := updateKeyState j "a" ((buttons &&& 0x0010) != 0)
  let j := updateKeyState j "b" ((buttons &&& 0x0020) != 0)
  let j := updateKeyState j "x" ((buttons &&& 0x0040) != 0)
  let j := updateKeyState j "y" ((buttons &&& 0x0080) != 0)
  let j := updateKeyState j "lb" ((buttons &&& 0x0100) != 0)
  let j := updateKeyState j "rb" ((buttons &&& 0x0200) != 0)
  let j := updateKeyState j "select" ((buttons &&& 0x0400) != 0)
  let j := updateKeyState j "start" ((buttons &&& 0x0800) != 0)
  let j := updateKeyState j "l3" ((buttons &&& 0x1000) != 0)
  updateKeyState j "r3" ((buttons &&& 0x2000) != 0)

/-- The name that `processButtons` of `j2k.go` uses for the intent of each bit
of the layout: 0 d-pad up, 1 d-pad down, 2 d-pad left, 3 d-pad right, 4 A, 5 B,
6 X, 7 Y, 8 left shoulder, 9 right shoulder, 10 select, 11 start, 12 left stick
click, 13 right stick click. -/
def bitLayout : List String :=
  ["dpad_up", "dpad_down", "dpad_left", "dpad_right", "a", "b", "x", "y",
   "lb", "rb", "select", "start", "l3", "r3"]

/-- The requests of the layout for the mask `b`: for each bit position in
ascending order the intent of that bit, with desired state true iff the bit
is set. -/
def layoutRequests (b : Nat) : List (String × Bool) :=
  (List.range 14).map (fun i => (bitLayout.getD i "", b.testBit i))

/-- Apply a list of requests in order, each through `updateKeyState`. -/
def applyRequests (j : Joystick2Keyboard) (reqs : List (String × Bool)) : Joystick2Keyboard :=
  reqs.foldl (fun j r => updateKeyState j r.1 r.2) j

/-! ## Polling loop -/

/-- The outcome of one `device.Read(buffer)`: the bytes the device returned
(`n` is their number) and the error, if any. -/
structure ReadResult where
  data : List Nat
  err : Option String

/-- The buffer after `device.Read(buffer)`: the first `n` bytes are
overwritten, the rest keeps what it held. On an error the buffer is taken
as unchanged. -/
def readInto (buffer : List Nat) (r : ReadResult) : List Nat :=
  match r.err with
  | some _ => buffer
  | none => r.data ++ buffer.drop r.data.length

/-- The body of the input loop of `Run` in `j2k.go`, on the state and the
read buffer. -/
noncomputable def runCycle (j : Joystick2Keyboard) (buffer : List Nat) (r : ReadResult) :
    Joystick2Keyboard × List Nat :=
  let n := r.data.length
  let buffer := readInto buffer r
  match r.err with
  | some _ => (j, buffer)
  | none =>
    if n < 14 then (j, buffer)
    else
      let state := decodeState buffer
      let j := processButtons j state.buttons
      let j := processLeftStick j (normalizeAxis state.leftX) (normalizeAxis state.leftY)
      let j := processRightStick j (normalizeAxis state.rightX) (normalizeAxis state.rightY)
      let j := updateKeyState j "lt" (decide ((state.trigL : ℝ) / 255.0 > 0.5))
      let j := updateKeyState j "rt" (decide ((state.trigR : ℝ) / 255.0 > 0.5))
      (j, buffer)

/-- The input loop `for j.running` of `Run` in `j2k.go` over the reads of a
finite stretch of the execution. -/
noncomputable def runLoop (j : Joystick2Keyboard) (buffer : List Nat) :
    List ReadResult → Joystick2Keyboard × List Nat
  | [] => (j, buffer)
  | r :: rs =>
    if j.running then
      let next := runCycle j buffer r
      runLoop next.1 next.2 rs
    else (j, buffer)

/-! ## Intents of the sticks and the triggers, and runs of the emulator -/

/-- The four desired states of one stick. -/
structure StickIntents where
  left : Bool
  right : Bool
  up : Bool
  down : Bool

/-- The desired states that `processLeftStick` and `processRightStick` compute
from `x` and `y` and hand to `updateKeyState`, in the order left, right, up,
down. -/
noncomputable def stickIntents (deadzone : ℚ) (x y : ℝ) : StickIntents :=
  let magnitude := Real.sqrt (x * x + y * y)
  let x1 := if magnitude < (deadzone : ℝ) then 0 else x
  let y1 := if magnitude < (deadzone : ℝ) then 0 else y
  let x2 := if magnitude > 0 then x1 / magnitude else x1
  let y2 := if magnitude > 0 then y1 / magnitude else y1
  { left := decide (x2 < -0.5)
    right := decide (x2 > 0.5)
    up := decide (y2 < -0.5)
    down := decide (y2 > 0.5) }

/-- The number of directions that are requested true. -/
def StickIntents.count (s : StickIntents) : Nat :=
  [s.left, s.right, s.up, s.down].count true

/-- The desired state `float64(raw)/255.0 > 0.5` that `Run` of `j2k.go` computes
for a trigger byte. -/
noncomputable def triggerPressed (raw : Nat) : Bool :=
  decide ((raw : ℝ) / 255.0 > 0.5)

/-- The names that the pipeline of `j2k.go` hands to `updateKeyState`: those of
`processButtons`, of the two stick methods, and of the two trigger updates in
`Run`. -/
def pipelineNames : List String :=
  ["dpad_up", "dpad_down", "dpad_left", "dpad_right", "a", "b", "x", "y",
   "lb", "rb", "select", "start", "l3", "r3",
   "lstick_left", "lstick_right", "lstick_up", "lstick_down",
   "rstick_left", "rstick_right", "rstick_up", "rstick_down",
   "lt", "rt"]

/-- One thing that happens to the emulator of `j2k.go`: a poll cycle of `Run`
with the outcome of its read, or a call of `Stop` with the order in which its
loop visits the entries. -/
inductive Step where
  | poll (r : ReadResult)
  | Stop (order : List Int)

/-- Perform one step on the emulator state and the read buffer. -/
noncomputable def Step.apply (s : Joystick2Keyboard × List Nat) :
    Step → Joystick2Keyboard × List Nat
  | .poll r => runCycle s.1 s.2 r
  | .Stop order => (J2K.Stop s.1 order, s.2)

/-- Perform a sequence of steps, first to last. -/
noncomputable def runSteps (s : Joystick2Keyboard × List Nat) (steps : List Step) :
    Joystick2Keyboard × List Nat :=
  steps.foldl Step.apply s

/-! ## The copy in `internal/joystick2keyboard/emulator.go`

The struct has one more field, `lastBuffer`; `updateKeyState`, `Stop`,
`normalizeAxis` and the stick methods are the same text as in `j2k.go` and do
not touch `lastBuffer`, so they are the definitions above on the common part. -/

namespace Emulator

/-- The struct `Joystick2Keyboard` of `emulator.go`. -/
structure Joystick2Keyboard extends J2K.Joystick2Keyboard where
  lastBuffer : List Nat

/-- The struct that `NewJoystick2Keyboard` of `emulator.go` returns when the
keyboard opens. -/
def initialState (vk : keybd_event) : Joystick2Keyboard where
  toJoystick2Keyboard := J2K.initialState vk
  lastBuffer := List.replicate 64 0

/-- The method `updateKeyState` of `emulator.go`. -/
def updateKeyState (j : Joystick2Keyboard) (buttonName : String) (pressed : Bool) :
    Joystick2Keyboard :=
  { j with toJoystick2Keyboard := J2K.updateKeyState j.toJoystick2Keyboard buttonName pressed }

/-- The method `Stop` of `emulator.go`. -/
def Stop (j : Joystick2Keyboard) (order : List Int) : Joystick2Keyboard :=
  { j with toJoystick2Keyboard := J2K.Stop j.toJoystick2Keyboard order }

/-- The method `processButtons` of `emulator.go`: only the d-pad is wired. -/
def processButtons (j : Joystick2Keyboard) (buttons : Nat) : Joystick2Keyboard :=
  let j := updateKeyState j "dpad_up" ((buttons &&& 0x0001) != 0)
  let j := updateKeyState j "dpad_down" ((buttons &&& 0x0002) != 0)
  let j := updateKeyState j "dpad_left" ((buttons &&& 0x0004) != 0)
  updateKeyState j "dpad_right" ((buttons &&& 0x0008) != 0)

/-- The function `byteArrEqual`. -/
def byteArrEqual (a b : List Nat) : Bool :=
  if a.length != b.length then false
  else (a.zip b).all (fun p => p.1 == p.2)

/-- The function `copyByteArr`. -/
def copyByteArr (a : List Nat) : List Nat := a

/-- The decoding of `buffer` (which is `fullbuffer[10:]`) in `Run` of
`emulator.go`. -/
def decodeState (buffer : List Nat) : ControllerState where
  buttons := LittleEndian.Uint16 (slice buffer (10 + 0) (10 + 2))
  leftX := int16 (LittleEndian.Uint16 (slice buffer 2 4))
  leftY := int16 (LittleEndian.Uint16 (slice buffer 4 6))
  rightX := int16 (LittleEndian.Uint16 (slice buffer 6 8))
  rightY := int16 (LittleEndian.Uint16 (slice buffer 8 10))
  trigL := buffer.getD 10 0
  trigR := buffer.getD 11 0

/-- The body of the input loop of `Run` in `emulator.go`, on the state and
the read buffer `fullbuffer`. -/
def runCycle (j : Joystick2Keyboard) (fullbuffer : List Nat) (r : ReadResult) :
    Joystick2Keyboard × List Nat :=
  let n := r.data.length
  let fullbuffer := readInto fullbuffer r
  match r.err with
  | some _ => (j, fullbuffer)
  | none =>
    let buffer := fullbuffer.drop 10
    if n < 14 then (j, fullbuffer)
    else
      let j := if !byteArrEqual buffer j.lastBuffer then
          { j with lastBuffer := copyByteArr buffer }
        else j
      let state := decodeState buffer
      let j := processButtons j state.buttons
      (j, fullbuffer)

end Emulator

end J2K

/-! # Theorems -/

namespace J2K

/-! ## The map operations -/

theorem ButtonStates.get_set_self (m : ButtonStates) (k : Int) (v : Bool) :
    (m.set k v).get k = v := by
  simp [ButtonStates.get, ButtonStates.set]

theorem ButtonStates.get_set_of_ne (m : ButtonStates) {k k' : Int} (v : Bool) (h : k' ≠ k) :
    (m.set k v).get k' = m.get k' := by
  simp [ButtonStates.get, ButtonStates.set, h]

theorem ButtonStates.set_eq_self (m : ButtonStates) (k : Int) (v : Bool) (h : m k = some v) :
    m.set k v = m := by
  funext k'
  by_cases hk : k' = k
  · subst hk; simp [ButtonStates.set, h]
  · simp [ButtonStates.set, hk]

theorem ButtonStates.set_set (m : ButtonStates) (k : Int) (v w : Bool) :
    (m.set k v).set k w = m.set k w := by
  funext k'
  by_cases hk : k' = k <;> simp [ButtonStates.set, hk]

theorem ButtonStates.get_of_entry {m : ButtonStates} {k : Int} {v : Bool} (h : m k = some v) :
    m.get k = v := by
  simp [ButtonStates.get, h]

/-- The map built by the constructor has the entry `false` for exactly the
values of `keyMappings`. -/
theorem initButtonStates_apply (l : List (String × Int)) (k : Int) :
    initButtonStates l k = if k ∈ l.map Prod.snd then some false else none := by
  have gen : ∀ (l : List (String × Int)) (m : ButtonStates),
      (l.foldl (fun m entry => m.set entry.2 false) m) k
        = if k ∈ l.map Prod.snd then some false else m k := by
    intro l
    induction l with
    | nil => intro m; simp
    | cons e rest ih =>
      intro m
      rw [List.foldl_cons, ih]
      by_cases h1 : k ∈ rest.map Prod.snd
      · simp [h1]
      · by_cases h2 : k = e.2
        · simp [h1, h2, ButtonStates.set]
        · simp only [h1, List.map_cons, List.mem_cons, h2, or_self, if_false, ButtonStates.set]
  simpa [initButtonStates, ButtonStates.empty] using gen l ButtonStates.empty

/-- When the keyboard opens, the constructor returns `initialState`. -/
theorem NewJoystick2Keyboard_ok (vk : keybd_event) :
    NewJoystick2Keyboard vk none = .ok (initialState vk) := rfl

theorem initButtonStates_get (l : List (String × Int)) (k : Int) :
    (initButtonStates l).get k = false := by
  unfold ButtonStates.get
  rw [initButtonStates_apply]
  split <;> rfl

/-! ## `updateKeyState` case by case -/

theorem updateKeyState_unmapped (j : Joystick2Keyboard) (name : String) (p : Bool)
    (h : j.keyMappings.lookup name = none) : updateKeyState j name p = j := by
  simp [updateKeyState, h]

theorem updateKeyState_press (j : Joystick2Keyboard) (name : String) (k : Int)
    (h : j.keyMappings.lookup name = some k) (hs : j.buttonStates.get k = false) :
    updateKeyState j name true
      = { j with kb := j.kb ++ [KeyEvent.press k], buttonStates := j.buttonStates.set k true } := by
  simp [updateKeyState, h, hs]

theorem updateKeyState_release (j : Joystick2Keyboard) (name : String) (k : Int)
    (h : j.keyMappings.lookup name = some k) (hs : j.buttonStates.get k = true) :
    updateKeyState j name false
      = { j with kb := j.kb ++ [KeyEvent.release k],
                 buttonStates := j.buttonStates.set k false } := by
  simp [updateKeyState, h, hs]

theorem updateKeyState_same (j : Joystick2Keyboard) (name : String) (k : Int) (p : Bool)
    (h : j.keyMappings.lookup name = some k) (hs : j.buttonStates.get k = p) :
    updateKeyState j name p = j := by
  cases p <;> simp [updateKeyState, h, hs]

theorem updateKeyState_keyMappings (j : Joystick2Keyboard) (name : String) (p : Bool) :
    (updateKeyState j name p).keyMappings = j.keyMappings := by
  unfold updateKeyState
  split
  · split
    · rfl
    · split <;> rfl
  · rfl

/-- After `updateKeyState(name, p)` on a mapped name the key reads `p`. -/
theorem updateKeyState_get (j : Joystick2Keyboard) (name : String) (k : Int) (p : Bool)
    (h : j.keyMappings.lookup name = some k) :
    (updateKeyState j name p).buttonStates.get k = p := by
  cases hs : j.buttonStates.get k <;> cases p
  · rw [updateKeyState_same j name k false h hs]; exact hs
  · rw [updateKeyState_press j name k h hs]; exact ButtonStates.get_set_self _ _ _
  · rw [updateKeyState_release j name k h hs]; exact ButtonStates.get_set_self _ _ _
  · rw [updateKeyState_same j name k true h hs]; exact hs

/-! ## Claims on `updateKeyState` -/

/-- C1. Calling `updateKeyState(name, p)` a second time right after a first call
with the same arguments changes nothing: no event is appended to the log and
`buttonStates` is as the first call left it. From the state built by the
constructor, `updateKeyState("a", true)` twice sends one press of `VK_SPACE`
in total. -/
theorem updateKeyState_idempotent (j : Joystick2Keyboard) (name : String) (p : Bool)
    (vk : keybd_event) :
    (updateKeyState (updateKeyState j name p) name p).kb = (updateKeyState j name p).kb ∧
    (updateKeyState (updateKeyState j name p) name p).buttonStates
      = (updateKeyState j name p).buttonStates ∧
    updateKeyState (updateKeyState j name p) name p = updateKeyState j name p ∧
    (updateKeyState (updateKeyState (initialState vk) "a" true) "a" true).kb
      = [KeyEvent.press vk.VK_SPACE] := by
  have key : ∀ (j : Joystick2Keyboard) (name : String) (p : Bool),
      updateKeyState (updateKeyState j name p) name p = updateKeyState j name p := by
    intro j name p
    cases h : j.keyMappings.lookup name with
    | none =>
      rw [updateKeyState_unmapped j name p h, updateKeyState_unmapped j name p h]
    | some k =>
      have h2 : (updateKeyState j name p).keyMappings.lookup name = some k := by
        rw [updateKeyState_keyMappings]; exact h
      exact updateKeyState_same _ name k p h2 (updateKeyState_get j name k p h)
  refine ⟨by rw [key], by rw [key], key j name p, ?_⟩
  have hl : (initialState vk).keyMappings.lookup "a" = some vk.VK_SPACE := rfl
  rw [key, updateKeyState_press (initialState vk) "a" vk.VK_SPACE hl (initButtonStates_get _ _)]
  rfl

/-- C2. For a mapped name `n` with key code `k` that is released,
`updateKeyState(n, true)` then `updateKeyState(n, false)` sends exactly
`press k` then `release k` and nothing else, every key reads afterwards as it
did at the start, and when `k` has its entry in `buttonStates` (as every
mapped key has from the constructor on) the final state is the starting
state but for the two events in the log. -/
theorem updateKeyState_press_then_release (j : Joystick2Keyboard) (n : String) (k : Int)
    (hmap : j.keyMappings.lookup n = some k) (hrel : j.buttonStates.get k = false) :
    (updateKeyState (updateKeyState j n true) n false).kb
      = j.kb ++ [KeyEvent.press k, KeyEvent.release k] ∧
    (∀ k', (updateKeyState (updateKeyState j n true) n false).buttonStates.get k'
      = j.buttonStates.get k') ∧
    (j.buttonStates k = some false →
      updateKeyState (updateKeyState j n true) n false
        = { j with kb := j.kb ++ [KeyEvent.press k, KeyEvent.release k] }) := by
  rw [updateKeyState_press j n k hmap hrel]
  rw [updateKeyState_release
    { j with kb := j.kb ++ [KeyEvent.press k], buttonStates := j.buttonStates.set k true }
    n k hmap (ButtonStates.get_set_self _ _ _)]
  refine ⟨by simp, fun k' => ?_, fun hentry => ?_⟩
  · show ((j.buttonStates.set k true).set k false).get k' = j.buttonStates.get k'
    rw [ButtonStates.set_set]
    by_cases hk : k' = k
    · subst hk; rw [ButtonStates.get_set_self, hrel]
    · exact ButtonStates.get_set_of_ne _ _ hk
  · simp [ButtonStates.set_set, ButtonStates.set_eq_self _ _ _ hentry]

theorem updateKeyState_press_then_release_witness :
    (initialState linuxKeys).keyMappings.lookup "a" = some 57 ∧
    (initialState linuxKeys).buttonStates 57 = some false ∧
    (updateKeyState (updateKeyState (initialState linuxKeys) "a" true) "a" false).kb
      = [KeyEvent.press 57, KeyEvent.release 57] ∧
    updateKeyState (updateKeyState (initialState linuxKeys) "a" true) "a" false
      = { initialState linuxKeys with
          kb := (initialState linuxKeys).kb ++ [KeyEvent.press 57, KeyEvent.release 57] } :=
  have h := updateKeyState_press_then_release (initialState linuxKeys) "a" 57
    (by decide) (by decide)
  ⟨by decide, by decide, h.1, h.2.2 (by decide)⟩

/-- C4. A name that is not a key of `keyMappings` is ignored: `updateKeyState`
returns the state as it was, so no event is sent and `buttonStates` has the
same entries with the same values. -/
theorem updateKeyState_unmapped_noop (j : Joystick2Keyboard) (name : String) (p : Bool)
    (h : name ∉ j.keyMappings.map Prod.fst) :
    updateKeyState j name p = j ∧ (updateKeyState j name p).kb = j.kb ∧
      (updateKeyState j name p).buttonStates = j.buttonStates := by
  have hl : j.keyMappings.lookup name = none := by
    rw [List.lookup_eq_none_iff]
    intro a ha
    have hne : name ≠ a.1 := fun hn => h (List.mem_map.mpr ⟨a, ha, hn.symm⟩)
    simpa using hne
  rw [updateKeyState_unmapped j name p hl]
  exact ⟨rfl, rfl, rfl⟩

theorem updateKeyState_unmapped_noop_witness :
    "lb" ∉ (initialState linuxKeys).keyMappings.map Prod.fst ∧
    updateKeyState (initialState linuxKeys) "lb" true = initialState linuxKeys :=
  ⟨by decide, (updateKeyState_unmapped_noop (initialState linuxKeys) "lb" true (by decide)).1⟩


/-! ## `Stop` -/

theorem stopStep_of_pressed (j : Joystick2Keyboard) (key : Int)
    (h : j.buttonStates key = some true) :
    stopStep j key = { j with kb := j.kb ++ [KeyEvent.release key],
                              buttonStates := j.buttonStates.set key false } := by
  simp [stopStep, h]

theorem stopStep_of_not_pressed (j : Joystick2Keyboard) (key : Int)
    (h : j.buttonStates key ≠ some true) : stopStep j key = j := by
  unfold stopStep
  split
  · contradiction
  · rfl

/-- The loop of `Stop` over distinct keys: one release for each visited key
whose entry is pressed, in visiting order, and those entries become false. -/
theorem stopLoop_spec (order : List Int) (hnd : order.Nodup) (j : Joystick2Keyboard) :
    (order.foldl stopStep j).kb
        = j.kb ++ (order.filter (fun k => decide (j.buttonStates k = some true))).map
            KeyEvent.release ∧
    (∀ k, (order.foldl stopStep j).buttonStates k
        = if k ∈ order ∧ j.buttonStates k = some true then some false else j.buttonStates k) ∧
    (order.foldl stopStep j).keyMappings = j.keyMappings ∧
    (order.foldl stopStep j).running = j.running ∧
    (order.foldl stopStep j).deadzone = j.deadzone := by
  induction order generalizing j with
  | nil => simp
  | cons a rest ih =>
    have hnotin : a ∉ rest := (List.nodup_cons.mp hnd).1
    have hrest : rest.Nodup := (List.nodup_cons.mp hnd).2
    rw [List.foldl_cons]
    obtain ⟨h1, h2, h3, h4, h5⟩ := ih hrest (stopStep j a)
    by_cases hp : j.buttonStates a = some true
    · rw [stopStep_of_pressed j a hp] at h1 h2 h3 h4 h5 ⊢
      have hfilter : rest.filter (fun k => decide ((j.buttonStates.set a false) k = some true))
          = rest.filter (fun k => decide (j.buttonStates k = some true)) := by
        apply List.filter_congr
        intro k hk
        have hne : k ≠ a := fun h => hnotin (h ▸ hk)
        simp [ButtonStates.set, hne]
      refine ⟨?_, ?_, h3, h4, h5⟩
      · rw [h1]
        simp only [hfilter, List.filter_cons, hp, decide_True, if_true, List.map_cons,
          List.append_assoc, List.singleton_append]
      · intro k
        rw [h2 k]
        by_cases hka : k = a
        · subst hka
          simp [hnotin, ButtonStates.set, hp]
        · simp [ButtonStates.set, hka]
    · rw [stopStep_of_not_pressed j a hp] at h1 h2 h3 h4 h5 ⊢
      refine ⟨?_, ?_, h3, h4, h5⟩
      · rw [h1]
        simp [List.filter_cons, hp]
      · intro k
        rw [h2 k]
        by_cases hka : k = a
        · subst hka
          simp [hnotin, hp]
        · simp [hka]

/-- The keys that read as pressed are the visited keys whose entry is pressed. -/
theorem pressedKeys_eq_of_rangeOrder (m : ButtonStates) (order : List Int)
    (h : RangeOrder m order) :
    pressedKeys m = ↑(order.filter (fun k => decide (m k = some true))).toFinset := by
  ext k
  simp only [pressedKeys, Set.mem_setOf_eq, Finset.mem_coe, List.mem_toFinset, List.mem_filter,
    decide_eq_true_eq]
  constructor
  · intro hk
    have hs : m k = some true := by
      unfold ButtonStates.get at hk
      cases hm : m k with
      | none => simp [hm] at hk
      | some v => simp [hm] at hk; simp [hk]
    exact ⟨(h.2 k).mpr (by simp [hs]), hs⟩
  · rintro ⟨_, hs⟩
    exact ButtonStates.get_of_entry hs

theorem pressedKeys_ncard_of_rangeOrder (m : ButtonStates) (order : List Int)
    (h : RangeOrder m order) :
    (pressedKeys m).ncard = (order.filter (fun k => decide (m k = some true))).length := by
  rw [pressedKeys_eq_of_rangeOrder m order h, Set.ncard_coe_Finset,
    List.toFinset_card_of_nodup (h.1.filter _)]

/-- What `Stop` does from any state, for a visiting order of its entries. -/
theorem Stop_spec (j : Joystick2Keyboard) (order : List Int)
    (horder : RangeOrder j.buttonStates order) :
    ∃ released : List Int,
      (Stop j order).kb = j.kb ++ released.map KeyEvent.release ∧
      released.length = (pressedKeys j.buttonStates).ncard ∧ released.Nodup ∧
      (∀ k, k ∈ released ↔ j.buttonStates.get k = true) ∧
      (∀ k, (Stop j order).buttonStates k = (j.buttonStates k).map (fun _ => false)) := by
  obtain ⟨h1, h2, -, -, -⟩ := stopLoop_spec order horder.1 { j with running := false }
  refine ⟨order.filter (fun k => decide (j.buttonStates k = some true)), h1, ?_,
    horder.1.filter _, ?_, ?_⟩
  · rw [pressedKeys_ncard_of_rangeOrder _ _ horder]
  · intro k
    have := congrArg (fun s => k ∈ s) (pressedKeys_eq_of_rangeOrder _ _ horder)
    simp only [pressedKeys, Set.mem_setOf_eq, Finset.mem_coe, List.mem_toFinset] at this
    rw [this]
  · intro k
    show (order.foldl stopStep { j with running := false }).buttonStates k = _
    rw [h2 k]
    cases hm : j.buttonStates k with
    | none => simp
    | some v =>
      have hin : k ∈ order := (horder.2 k).mpr (by simp [hm])
      cases v <;> simp [hin]


/-! ## Entries of `buttonStates` along calls -/

theorem updateKeyState_isSome (j : Joystick2Keyboard) (h : MappedKeysHaveEntry j)
    (name : String) (p : Bool) (k : Int) :
    ((updateKeyState j name p).buttonStates k).isSome = (j.buttonStates k).isSome := by
  cases hl : j.keyMappings.lookup name with
  | none => rw [updateKeyState_unmapped j name p hl]
  | some key =>
    have hkey := h name key hl
    cases hs : j.buttonStates.get key <;> cases p
    · rw [updateKeyState_same j name key false hl hs]
    · rw [updateKeyState_press j name key hl hs]
      by_cases hk : k = key
      · subst hk; simp [ButtonStates.set, hkey]
      · simp [ButtonStates.set, hk]
    · rw [updateKeyState_release j name key hl hs]
      by_cases hk : k = key
      · subst hk; simp [ButtonStates.set, hkey]
      · simp [ButtonStates.set, hk]
    · rw [updateKeyState_same j name key true hl hs]

theorem updateKeyState_mappedKeysHaveEntry (j : Joystick2Keyboard) (h : MappedKeysHaveEntry j)
    (name : String) (p : Bool) : MappedKeysHaveEntry (updateKeyState j name p) := by
  intro n k hn
  rw [updateKeyState_keyMappings] at hn
  rw [updateKeyState_isSome j h]
  exact h n k hn

theorem mem_values_of_lookup {l : List (String × Int)} {name : String} {k : Int}
    (h : l.lookup name = some k) : k ∈ l.map Prod.snd := by
  obtain ⟨l₁, l₂, rfl, -⟩ := List.lookup_eq_some_iff.mp h
  simp

theorem initialState_mappedKeysHaveEntry (vk : keybd_event) :
    MappedKeysHaveEntry (initialState vk) := by
  intro name k hl
  have hmem : k ∈ (defaultKeyMappings vk).map Prod.snd :=
    mem_values_of_lookup hl
  show (initButtonStates (defaultKeyMappings vk) k).isSome = true
  rw [initButtonStates_apply, if_pos hmem]
  rfl

theorem applyRequests_append (j : Joystick2Keyboard) (reqs : List (String × Bool))
    (r : String × Bool) :
    applyRequests j (reqs ++ [r]) = updateKeyState (applyRequests j reqs) r.1 r.2 := by
  simp [applyRequests, List.foldl_append]

/-- After any sequence of `updateKeyState` calls from the state built by the
constructor, the mapped keys have entries and the entries are those the
constructor made. -/
theorem applyRequests_entries (vk : keybd_event) (calls : List (String × Bool)) :
    MappedKeysHaveEntry (applyRequests (initialState vk) calls) ∧
    ∀ k, ((applyRequests (initialState vk) calls).buttonStates k).isSome
      = decide (k ∈ (defaultKeyMappings vk).map Prod.snd) := by
  induction calls using List.reverseRecOn with
  | nil =>
    refine ⟨initialState_mappedKeysHaveEntry vk, fun k => ?_⟩
    show (initButtonStates (defaultKeyMappings vk) k).isSome = _
    rw [initButtonStates_apply]
    split <;> simp [*]
  | append_singleton calls r ih =>
    rw [applyRequests_append]
    refine ⟨updateKeyState_mappedKeysHaveEntry _ ih.1 _ _, fun k => ?_⟩
    rw [updateKeyState_isSome _ ih.1]
    exact ih.2 k

/-- The distinct values of `keyMappings`, in any fixed order, are a visiting
order for `Stop` in every state reached by `updateKeyState` calls. -/
theorem rangeOrder_applyRequests (vk : keybd_event) (calls : List (String × Bool)) :
    RangeOrder (applyRequests (initialState vk) calls).buttonStates
      ((defaultKeyMappings vk).map Prod.snd).dedup := by
  refine ⟨List.nodup_dedup _, fun k => ?_⟩
  rw [(applyRequests_entries vk calls).2 k]
  simp

/-! ## Claim on `Stop` -/

/-- C3. In a state reached from the constructor by `updateKeyState` calls, with
`N` key codes pressed, `Stop` (whatever order its loop visits the entries in)
appends only release events, `N` of them, one for each pressed key code and
none for another, and afterwards every entry of `buttonStates` is false. -/
theorem Stop_releases_all_pressed (vk : keybd_event) (calls : List (String × Bool))
    (order : List Int) (N : Nat)
    (horder : RangeOrder (applyRequests (initialState vk) calls).buttonStates order)
    (hN : (pressedKeys (applyRequests (initialState vk) calls).buttonStates).ncard = N) :
    ∃ released : List Int,
      (Stop (applyRequests (initialState vk) calls) order).kb
        = (applyRequests (initialState vk) calls).kb ++ released.map KeyEvent.release ∧
      released.length = N ∧ released.Nodup ∧
      (∀ k, k ∈ released ↔
        (applyRequests (initialState vk) calls).buttonStates.get k = true) ∧
      (∀ k, (Stop (applyRequests (initialState vk) calls) order).buttonStates k
        = ((applyRequests (initialState vk) calls).buttonStates k).map (fun _ => false)) ∧
      (∀ k, (Stop (applyRequests (initialState vk) calls) order).buttonStates.get k = false) := by
  obtain ⟨released, h1, h2, h3, h4, h5⟩ := Stop_spec _ order horder
  refine ⟨released, h1, by rw [h2, hN], h3, h4, h5, fun k => ?_⟩
  unfold ButtonStates.get
  rw [h5 k]
  cases (applyRequests (initialState vk) calls).buttonStates k <;> rfl

theorem Stop_releases_all_pressed_witness :
    ∃ released : List Int,
      (Stop (applyRequests (initialState linuxKeys) [("a", true), ("b", true), ("a", false)])
          [30, 32, 17, 31, 36, 23, 37, 103, 108, 105, 106, 57, 18, 16, 33, 20, 21, 22, 15, 28,
           38, 19]).kb
        = (applyRequests (initialState linuxKeys) [("a", true), ("b", true), ("a", false)]).kb
            ++ released.map KeyEvent.release ∧
      released.length = 1 ∧ released.Nodup ∧
      (∀ k, k ∈ released ↔
        (applyRequests (initialState linuxKeys)
          [("a", true), ("b", true), ("a", false)]).buttonStates.get k = true) ∧
      (∀ k, (Stop
          (applyRequests (initialState linuxKeys) [("a", true), ("b", true), ("a", false)])
          [30, 32, 17, 31, 36, 23, 37, 103, 108, 105, 106, 57, 18, 16, 33, 20, 21, 22, 15, 28,
           38, 19]).buttonStates k
        = ((applyRequests (initialState linuxKeys)
            [("a", true), ("b", true), ("a", false)]).buttonStates k).map (fun _ => false)) ∧
      (∀ k, (Stop
          (applyRequests (initialState linuxKeys) [("a", true), ("b", true), ("a", false)])
          [30, 32, 17, 31, 36, 23, 37, 103, 108, 105, 106, 57, 18, 16, 33, 20, 21, 22, 15, 28,
           38, 19]).buttonStates.get k = false) :=
  Stop_releases_all_pressed linuxKeys [("a", true), ("b", true), ("a", false)]
    [30, 32, 17, 31, 36, 23, 37, 103, 108, 105, 106, 57, 18, 16, 33, 20, 21, 22, 15, 28, 38, 19]
    1
    (by
      have h := rangeOrder_applyRequests linuxKeys [("a", true), ("b", true), ("a", false)]
      have e : ((defaultKeyMappings linuxKeys).map Prod.snd).dedup
          = [30, 32, 17, 31, 36, 23, 37, 103, 108, 105, 106, 57, 18, 16, 33, 20, 21, 22, 15,
             28, 38, 19] := by decide
      rw [e] at h
      exact h)
    (by
      rw [pressedKeys_ncard_of_rangeOrder _ _
        (rangeOrder_applyRequests linuxKeys [("a", true), ("b", true), ("a", false)])]
      decide)


/-! ## The trace invariant -/

theorem eventsFor_append (k : Int) (l₁ l₂ : List KeyEvent) :
    eventsFor k (l₁ ++ l₂) = eventsFor k l₁ ++ eventsFor k l₂ := by
  simp [eventsFor]

theorem traceAgrees_press (j : Joystick2Keyboard) (key k : Int) (h : TraceAgrees j k)
    (hs : j.buttonStates.get key = false) :
    TraceAgrees { j with kb := j.kb ++ [KeyEvent.press key],
                         buttonStates := j.buttonStates.set key true } k := by
  obtain ⟨n, hn, hg⟩ := h
  by_cases hk : k = key
  · subst hk
    refine ⟨n + 1, ?_, ?_⟩
    · have hev : n % 2 = 0 := by
        rw [hs] at hg
        have := of_decide_eq_false hg.symm
        omega
      show eventsFor k (j.kb ++ [KeyEvent.press k]) = _
      rw [eventsFor_append, hn]
      simp [alternation, hev, eventsFor, KeyEvent.key]
    · rw [hs] at hg
      have := of_decide_eq_false hg.symm
      rw [ButtonStates.get_set_self]
      exact (decide_eq_true (by omega)).symm
  · refine ⟨n, ?_, ?_⟩
    · have hne : key ≠ k := fun h => hk h.symm
      show eventsFor k (j.kb ++ [KeyEvent.press key]) = _
      rw [eventsFor_append, ← hn]
      simp [eventsFor, KeyEvent.key, hne]
    · show (j.buttonStates.set key true).get k = _
      rw [ButtonStates.get_set_of_ne _ _ hk]
      exact hg

theorem traceAgrees_release (j : Joystick2Keyboard) (key k : Int) (h : TraceAgrees j k)
    (hs : j.buttonStates.get key = true) :
    TraceAgrees { j with kb := j.kb ++ [KeyEvent.release key],
                         buttonStates := j.buttonStates.set key false } k := by
  obtain ⟨n, hn, hg⟩ := h
  by_cases hk : k = key
  · subst hk
    rw [hs] at hg
    have hodd : n % 2 = 1 := of_decide_eq_true hg.symm
    refine ⟨n + 1, ?_, ?_⟩
    · have hev : ¬ n % 2 = 0 := by omega
      show eventsFor k (j.kb ++ [KeyEvent.release k]) = _
      rw [eventsFor_append, hn]
      simp [alternation, hev, eventsFor, KeyEvent.key]
    · rw [ButtonStates.get_set_self]
      exact (decide_eq_false (by omega)).symm
  · refine ⟨n, ?_, ?_⟩
    · have hne : key ≠ k := fun h => hk h.symm
      show eventsFor k (j.kb ++ [KeyEvent.release key]) = _
      rw [eventsFor_append, ← hn]
      simp [eventsFor, KeyEvent.key, hne]
    · show (j.buttonStates.set key false).get k = _
      rw [ButtonStates.get_set_of_ne _ _ hk]
      exact hg

theorem traceAgrees_updateKeyState (j : Joystick2Keyboard) (name : String) (p : Bool) (k : Int)
    (h : TraceAgrees j k) : TraceAgrees (updateKeyState j name p) k := by
  cases hl : j.keyMappings.lookup name with
  | none => rw [updateKeyState_unmapped j name p hl]; exact h
  | some key =>
    cases hs : j.buttonStates.get key <;> cases p
    · rw [updateKeyState_same j name key false hl hs]; exact h
    · rw [updateKeyState_press j name key hl hs]; exact traceAgrees_press j key k h hs
    · rw [updateKeyState_release j name key hl hs]; exact traceAgrees_release j key k h hs
    · rw [updateKeyState_same j name key true hl hs]; exact h

theorem traceAgrees_stopStep (j : Joystick2Keyboard) (key k : Int) (h : TraceAgrees j k) :
    TraceAgrees (stopStep j key) k := by
  by_cases hp : j.buttonStates key = some true
  · rw [stopStep_of_pressed j key hp]
    exact traceAgrees_release j key k h (ButtonStates.get_of_entry hp)
  · rw [stopStep_of_not_pressed j key hp]; exact h

theorem traceAgrees_Stop (j : Joystick2Keyboard) (order : List Int) (k : Int)
    (h : TraceAgrees j k) : TraceAgrees (Stop j order) k := by
  have start : TraceAgrees { j with running := false } k := h
  unfold Stop
  generalize ({ j with running := false } : Joystick2Keyboard) = j0 at start
  induction order generalizing j0 with
  | nil => exact start
  | cons a rest ih => exact ih _ (traceAgrees_stopStep j0 a k start)

theorem traceAgrees_runCalls (vk : keybd_event) (calls : List Call) (k : Int) :
    TraceAgrees (runCalls (initialState vk) calls) k := by
  induction calls using List.reverseRecOn with
  | nil => exact ⟨0, rfl, initButtonStates_get _ _⟩
  | append_singleton calls c ih =>
    have e : runCalls (initialState vk) (calls ++ [c])
        = Call.apply (runCalls (initialState vk) calls) c := by
      simp [runCalls, List.foldl_append]
    rw [e]
    cases c with
    | updateKeyState name p => exact traceAgrees_updateKeyState _ name p k ih
    | Stop order => exact traceAgrees_Stop _ order k ih

theorem alternation_getLast? (k : Int) (n : Nat) :
    (alternation k n).getLast? = some (KeyEvent.press k) ↔ n % 2 = 1 := by
  cases n with
  | zero => simp [alternation]
  | succ m =>
    by_cases hm : m % 2 = 0
    · simp [alternation, hm]; omega
    · simp [alternation, hm]; omega

/-- C5. After any finite sequence of `updateKeyState` and `Stop` calls from the
state built by the constructor (each `Stop` visiting the entries in whatever
order), the events sent for a key code `k` are `press k, release k, press k, ...`
in strict alternation beginning with a press, and `buttonStates[k]` is true
if and only if the last event sent for `k` is a press. -/
theorem trace_alternates_and_agrees (vk : keybd_event) (calls : List Call) (k : Int) :
    (∃ n, eventsFor k (runCalls (initialState vk) calls).kb = alternation k n) ∧
    ((runCalls (initialState vk) calls).buttonStates.get k = true ↔
      (eventsFor k (runCalls (initialState vk) calls).kb).getLast? = some (KeyEvent.press k)) := by
  obtain ⟨n, hn, hg⟩ := traceAgrees_runCalls vk calls k
  refine ⟨⟨n, hn⟩, ?_⟩
  rw [hn, alternation_getLast?, hg]
  simp

/-! ## Short reports -/

/-- C6. A poll cycle whose read returned fewer than 14 bytes without an error
leaves the emulator state as it was, in `j2k.go` and in `emulator.go`: the
report is not decoded, no event is sent and `buttonStates` is unchanged,
whatever the buffer holds and whatever the key state is. -/
theorem runCycle_short_read (j : Joystick2Keyboard) (e : Emulator.Joystick2Keyboard)
    (buffer : List Nat) (r : ReadResult) (herr : r.err = none) (hn : r.data.length < 14) :
    (runCycle j buffer r).1 = j ∧ (runCycle j buffer r).1.kb = j.kb ∧
    (runCycle j buffer r).1.buttonStates = j.buttonStates ∧
    (Emulator.runCycle e buffer r).1 = e := by
  have h1 : (runCycle j buffer r).1 = j := by
    simp only [runCycle, herr, hn, if_true]
  have h2 : (Emulator.runCycle e buffer r).1 = e := by
    simp only [Emulator.runCycle, herr, hn, if_true]
  rw [h1]
  exact ⟨rfl, rfl, rfl, h2⟩

theorem runCycle_short_read_witness :
    (runCycle (updateKeyState (initialState linuxKeys) "a" true) (List.replicate 64 0)
        ⟨[1, 0, 255, 127, 0, 0, 0, 0, 0, 0, 255, 255, 7], none⟩).1
      = updateKeyState (initialState linuxKeys) "a" true ∧
    (Emulator.runCycle (Emulator.initialState linuxKeys) (List.replicate 64 0)
        ⟨[1, 0, 255, 127, 0, 0, 0, 0, 0, 0, 255, 255, 7], none⟩).1
      = Emulator.initialState linuxKeys :=
  have h := runCycle_short_read (updateKeyState (initialState linuxKeys) "a" true)
    (Emulator.initialState linuxKeys) (List.replicate 64 0)
    ⟨[1, 0, 255, 127, 0, 0, 0, 0, 0, 0, 255, 255, 7], none⟩ rfl (by decide)
  ⟨h.1, h.2.2.2⟩

/-! ## Button bits -/

/-- Two constants at different places of the list of key codes differ. -/
theorem keybd_event.Distinct.ne {vk : keybd_event} (hvk : vk.Distinct) (i j : Fin 22)
    (hij : i ≠ j) : vk.codes.get ⟨i.1, i.2⟩ ≠ vk.codes.get ⟨j.1, j.2⟩ := by
  intro h
  have := (List.Nodup.get_inj_iff hvk).mp h
  exact hij (by simpa using this)

theorem and_bit_ne_zero (b i : Nat) : ((b &&& 2 ^ i) != 0) = b.testBit i := by
  rw [Nat.and_two_pow]
  cases h : b.testBit i <;> simp [Nat.pos_iff_ne_zero]

theorem processButtons_eq_layout (j : Joystick2Keyboard) (b : Nat) :
    processButtons j b = applyRequests j (layoutRequests b) := by
  have h0 : ((b &&& 1) != 0) = b.testBit 0 := and_bit_ne_zero b 0
  have h1 : ((b &&& 2) != 0) = b.testBit 1 := and_bit_ne_zero b 1
  have h2 : ((b &&& 4) != 0) = b.testBit 2 := and_bit_ne_zero b 2
  have h3 : ((b &&& 8) != 0) = b.testBit 3 := and_bit_ne_zero b 3
  have h4 : ((b &&& 16) != 0) = b.testBit 4 := and_bit_ne_zero b 4
  have h5 : ((b &&& 32) != 0) = b.testBit 5 := and_bit_ne_zero b 5
  have h6 : ((b &&& 64) != 0) = b.testBit 6 := and_bit_ne_zero b 6
  have h7 : ((b &&& 128) != 0) = b.testBit 7 := and_bit_ne_zero b 7
  have h8 : ((b &&& 256) != 0) = b.testBit 8 := and_bit_ne_zero b 8
  have h9 : ((b &&& 512) != 0) = b.testBit 9 := and_bit_ne_zero b 9
  have h10 : ((b &&& 1024) != 0) = b.testBit 10 := and_bit_ne_zero b 10
  have h11 : ((b &&& 2048) != 0) = b.testBit 11 := and_bit_ne_zero b 11
  have h12 : ((b &&& 4096) != 0) = b.testBit 12 := and_bit_ne_zero b 12
  have h13 : ((b &&& 8192) != 0) = b.testBit 13 := and_bit_ne_zero b 13
  have hl : layoutRequests b =
      [("dpad_up", b.testBit 0), ("dpad_down", b.testBit 1), ("dpad_left", b.testBit 2),
       ("dpad_right", b.testBit 3), ("a", b.testBit 4), ("b", b.testBit 5), ("x", b.testBit 6),
       ("y", b.testBit 7), ("lb", b.testBit 8), ("rb", b.testBit 9), ("select", b.testBit 10),
       ("start", b.testBit 11), ("l3", b.testBit 12), ("r3", b.testBit 13)] := rfl
  rw [hl]
  simp only [processButtons, applyRequests, List.foldl, h0, h1, h2, h3, h4, h5, h6, h7, h8, h9,
    h10, h11, h12, h13]

/-- C7. The method `processButtons` of `j2k.go` makes, for the bit positions 0 to
13 in ascending order, the request for the intent of that bit (d-pad up, down,
left, right, A, B, X, Y, left and right shoulder, select, start, left and
right stick click) with desired state true exactly when the bit is set; bits
14 and 15 play no part. The mask `0x0001` requests true for `dpad_up` only
and, from the state built by the constructor with pairwise distinct key
codes, sends one event, a press of `VK_UP`. -/
theorem processButtons_bit_layout (j : Joystick2Keyboard) (b : Nat) (vk : keybd_event) :
    processButtons j b = applyRequests j (layoutRequests b) ∧
    processButtons j b = processButtons j (b &&& 0x3FFF) ∧
    layoutRequests 0x0001 =
      [("dpad_up", true), ("dpad_down", false), ("dpad_left", false), ("dpad_right", false),
       ("a", false), ("b", false), ("x", false), ("y", false), ("lb", false), ("rb", false),
       ("select", false), ("start", false), ("l3", false), ("r3", false)] ∧
    (vk.Distinct → (processButtons (initialState vk) 0x0001).kb = [KeyEvent.press vk.VK_UP]) := by
  refine ⟨processButtons_eq_layout j b, ?_, by decide, fun hvk => ?_⟩
  · rw [processButtons_eq_layout, processButtons_eq_layout]
    have hl : layoutRequests (b &&& 0x3FFF) = layoutRequests b := by
      unfold layoutRequests
      apply List.map_congr_left
      intro i hi
      have hi14 : i < 14 := List.mem_range.mp hi
      have hbit : Nat.testBit 0x3FFF i = true := by
        interval_cases i <;> decide
      rw [Nat.testBit_and, hbit, Bool.and_true]
    rw [hl]
  · have hup : (initialState vk).keyMappings.lookup "dpad_up" = some vk.VK_UP := by
      simp [initialState, defaultKeyMappings, List.lookup]
    have hpress := updateKeyState_press (initialState vk) "dpad_up" vk.VK_UP hup
      (initButtonStates_get _ _)
    have hkeep : ∀ (name : String) (k : Int),
        (defaultKeyMappings vk).lookup name = some k → k ≠ vk.VK_UP →
        updateKeyState (updateKeyState (initialState vk) "dpad_up" true) name false
          = updateKeyState (initialState vk) "dpad_up" true := by
      intro name k hl hk
      apply updateKeyState_same _ name k false
      · rw [updateKeyState_keyMappings]; exact hl
      · rw [hpress]
        show ((initialState vk).buttonStates.set vk.VK_UP true).get k = false
        rw [ButtonStates.get_set_of_ne _ _ hk]
        exact initButtonStates_get _ _
    have hskip : ∀ (name : String), (defaultKeyMappings vk).lookup name = none →
        updateKeyState (updateKeyState (initialState vk) "dpad_up" true) name false
          = updateKeyState (initialState vk) "dpad_up" true := by
      intro name hl
      apply updateKeyState_unmapped
      rw [updateKeyState_keyMappings]; exact hl
    have e : processButtons (initialState vk) 0x0001
        = updateKeyState (initialState vk) "dpad_up" true := by
      simp only [processButtons]
      rw [show ((0x0001 &&& 0x0001 : Nat) != 0) = true by decide,
        show ((0x0001 &&& 0x0002 : Nat) != 0) = false by decide,
        show ((0x0001 &&& 0x0004 : Nat) != 0) = false by decide,
        show ((0x0001 &&& 0x0008 : Nat) != 0) = false by decide,
        show ((0x0001 &&& 0x0010 : Nat) != 0) = false by decide,
        show ((0x0001 &&& 0x0020 : Nat) != 0) = false by decide,
        show ((0x0001 &&& 0x0040 : Nat) != 0) = false by decide,
        show ((0x0001 &&& 0x0080 : Nat) != 0) = false by decide,
        show ((0x0001 &&& 0x0100 : Nat) != 0) = false by decide,
        show ((0x0001 &&& 0x0200 : Nat) != 0) = false by decide,
        show ((0x0001 &&& 0x0400 : Nat) != 0) = false by decide,
        show ((0x0001 &&& 0x0800 : Nat) != 0) = false by decide,
        show ((0x0001 &&& 0x1000 : Nat) != 0) = false by decide,
        show ((0x0001 &&& 0x2000 : Nat) != 0) = false by decide]
      rw [hkeep "dpad_down" vk.VK_DOWN
          (by simp [defaultKeyMappings, List.lookup]) (hvk.ne 9 8 (by decide)),
        hkeep "dpad_left" vk.VK_LEFT
          (by simp [defaultKeyMappings, List.lookup]) (hvk.ne 10 8 (by decide)),
        hkeep "dpad_right" vk.VK_RIGHT
          (by simp [defaultKeyMappings, List.lookup]) (hvk.ne 11 8 (by decide)),
        hkeep "a" vk.VK_SPACE
          (by simp [defaultKeyMappings, List.lookup]) (hvk.ne 12 8 (by decide)),
        hkeep "b" vk.VK_E
          (by simp [defaultKeyMappings, List.lookup]) (hvk.ne 13 8 (by decide)),
        hkeep "x" vk.VK_F
          (by simp [defaultKeyMappings, List.lookup]) (hvk.ne 15 8 (by decide)),
        hkeep "y" vk.VK_Q
          (by simp [defaultKeyMappings, List.lookup]) (hvk.ne 14 8 (by decide)),
        hskip "lb" (by simp [defaultKeyMappings, List.lookup]),
        hskip "rb" (by simp [defaultKeyMappings, List.lookup]),
        hkeep "select" vk.VK_TAB
          (by simp [defaultKeyMappings, List.lookup]) (hvk.ne 20 8 (by decide)),
        hkeep "start" vk.VK_ENTER
          (by simp [defaultKeyMappings, List.lookup]) (hvk.ne 21 8 (by decide)),
        hskip "l3" (by simp [defaultKeyMappings, List.lookup]),
        hskip "r3" (by simp [defaultKeyMappings, List.lookup])]
    rw [e, hpress]
    rfl

theorem processButtons_bit_layout_witness :
    linuxKeys.Distinct ∧
    processButtons (initialState linuxKeys) 0x4021
      = applyRequests (initialState linuxKeys) (layoutRequests 0x4021) ∧
    processButtons (initialState linuxKeys) 0x4021
      = processButtons (initialState linuxKeys) (0x4021 &&& 0x3FFF) ∧
    (processButtons (initialState linuxKeys) 0x0001).kb = [KeyEvent.press 103] :=
  have h := processButtons_bit_layout (initialState linuxKeys) 0x4021 linuxKeys
  ⟨by decide, h.1, h.2.1, h.2.2.2 (by decide)⟩

/-! ## Report decoding -/

theorem slice_getD (b : List Nat) (lo hi i : Nat) (h : i < hi - lo) :
    (slice b lo hi).getD i 0 = b.getD (lo + i) 0 := by
  simp [slice, List.getD_eq_getElem?_getD, List.getElem?_take, h]

theorem lor_shiftLeft_eight (b0 b1 : Nat) (h0 : b0 < 256) :
    b0 ||| (b1 <<< 8) = b0 + 256 * b1 := by
  rw [Nat.shiftLeft_eq, Nat.lor_comm, Nat.mul_comm, show (2:Nat)^8 = 256 from rfl]
  have := Nat.mul_add_lt_is_or (i := 8) (b := b0) (by simpa using h0) b1
  simp at this
  omega

theorem IsBytes.getD_lt {b : List Nat} (hb : IsBytes b) (i : Nat) : b.getD i 0 < 256 := by
  rw [List.getD_eq_getElem?_getD]
  cases h : b[i]? with
  | none => simp
  | some x => exact hb x (List.getElem?_mem h)

theorem uint16_slice (b : List Nat) (hb : IsBytes b) (lo : Nat) :
    LittleEndian.Uint16 (slice b lo (lo + 2)) = b.getD lo 0 + 256 * b.getD (lo + 1) 0 := by
  unfold LittleEndian.Uint16
  rw [slice_getD b lo (lo + 2) 0 (by omega), slice_getD b lo (lo + 2) 1 (by omega)]
  exact lor_shiftLeft_eight _ _ (hb.getD_lt _)

theorem decodeState_fields (buffer : List Nat) (hb : IsBytes buffer) :
    decodeState buffer =
      { buttons := buffer.getD 0 0 + 256 * buffer.getD 1 0
        leftX := int16 (buffer.getD 2 0 + 256 * buffer.getD 3 0)
        leftY := int16 (buffer.getD 4 0 + 256 * buffer.getD 5 0)
        rightX := int16 (buffer.getD 6 0 + 256 * buffer.getD 7 0)
        rightY := int16 (buffer.getD 8 0 + 256 * buffer.getD 9 0)
        trigL := buffer.getD 10 0
        trigR := buffer.getD 11 0 } := by
  unfold decodeState
  rw [uint16_slice buffer hb 0, uint16_slice buffer hb 2, uint16_slice buffer hb 4,
    uint16_slice buffer hb 6, uint16_slice buffer hb 8]

theorem int16_range (u : Nat) : -32768 ≤ int16 u ∧ int16 u ≤ 32767 := by
  unfold int16
  split <;> omega

/-- The bytes of the little-endian two's complement encoding of an `int16`. -/
theorem int16_encode (x : Int) (h1 : -32768 ≤ x) (h2 : x ≤ 32767) :
    int16 ((x % 65536).toNat % 256 + 256 * ((x % 65536).toNat / 256)) = x := by
  unfold int16
  split <;> omega

theorem int16_decode_unique (a b : Nat) (ha : a < 256) (hb : b < 256) (x : Int)
    (h : int16 (a + 256 * b) = x) :
    a = (x % 65536).toNat % 256 ∧ b = (x % 65536).toNat / 256 := by
  unfold int16 at h
  split at h <;> omega

theorem isBytes_cons {x : Nat} {l : List Nat} : IsBytes (x :: l) ↔ x < 256 ∧ IsBytes l := by
  simp [IsBytes]

theorem decodeState_bijective (s : ControllerState) (hs : s.InRange) :
    ∃! p : List Nat, p.length = 12 ∧ IsBytes p ∧ decodeState p = s := by
  obtain ⟨hbt, ⟨hlx1, hlx2⟩, ⟨hly1, hly2⟩, ⟨hrx1, hrx2⟩, ⟨hry1, hry2⟩, htl, htr⟩ :=
    hs
  refine ⟨[s.buttons % 256, s.buttons / 256,
    (s.leftX % 65536).toNat % 256, (s.leftX % 65536).toNat / 256,
    (s.leftY % 65536).toNat % 256, (s.leftY % 65536).toNat / 256,
    (s.rightX % 65536).toNat % 256, (s.rightX % 65536).toNat / 256,
    (s.rightY % 65536).toNat % 256, (s.rightY % 65536).toNat / 256,
    s.trigL, s.trigR], ⟨rfl, ?_, ?_⟩, ?_⟩
  · intro x hx
    simp only [List.mem_cons, List.mem_singleton, List.not_mem_nil, or_false] at hx
    omega
  · have hbytes : IsBytes [s.buttons % 256, s.buttons / 256,
        (s.leftX % 65536).toNat % 256, (s.leftX % 65536).toNat / 256,
        (s.leftY % 65536).toNat % 256, (s.leftY % 65536).toNat / 256,
        (s.rightX % 65536).toNat % 256, (s.rightX % 65536).toNat / 256,
        (s.rightY % 65536).toNat % 256, (s.rightY % 65536).toNat / 256,
        s.trigL, s.trigR] := by
      intro x hx
      simp only [List.mem_cons, List.mem_singleton, List.not_mem_nil, or_false] at hx
      omega
    rw [decodeState_fields _ hbytes]
    cases s
    simp only [List.getD_cons_zero, List.getD_cons_succ, ControllerState.mk.injEq]
    refine ⟨by omega, int16_encode _ hlx1 hlx2, int16_encode _ hly1 hly2,
      int16_encode _ hrx1 hrx2, int16_encode _ hry1 hry2, trivial, trivial⟩
  · rintro q ⟨hlen, hq, hdec⟩
    match q, hlen with
    | [a0, a1, a2, a3, a4, a5, a6, a7, a8, a9, a10, a11], _ =>
      rw [decodeState_fields _ hq] at hdec
      simp only [isBytes_cons] at hq
      obtain ⟨h0, h1, h2, h3, h4, h5, h6, h7, h8, h9, h10, h11, -⟩ := hq
      subst hdec
      simp only [List.getD_cons_zero, List.getD_cons_succ] at *
      obtain ⟨e2, e3⟩ := int16_decode_unique a2 a3 h2 h3 _ rfl
      obtain ⟨e4, e5⟩ := int16_decode_unique a4 a5 h4 h5 _ rfl
      obtain ⟨e6, e7⟩ := int16_decode_unique a6 a7 h6 h7 _ rfl
      obtain ⟨e8, e9⟩ := int16_decode_unique a8 a9 h8 h9 _ rfl
      simp only [List.cons.injEq, and_true]
      exact ⟨by omega, by omega, e2, e3, e4, e5, e6, e7, e8, e9⟩

theorem decodeState_take (buffer : List Nat) (hb : IsBytes buffer) :
    decodeState (buffer.take 12) = decodeState buffer := by
  have hb2 : IsBytes (buffer.take 12) := fun x hx => hb x (List.mem_of_mem_take hx)
  have hget : ∀ i, i < 12 → (buffer.take 12).getD i 0 = buffer.getD i 0 := by
    intro i hi
    simp [List.getD_eq_getElem?_getD, List.getElem?_take, hi]
  rw [decodeState_fields _ hb, decodeState_fields _ hb2]
  rw [hget 0 (by omega), hget 1 (by omega), hget 2 (by omega), hget 3 (by omega),
    hget 4 (by omega), hget 5 (by omega), hget 6 (by omega), hget 7 (by omega),
    hget 8 (by omega), hget 9 (by omega), hget 10 (by omega), hget 11 (by omega)]

/-- C8. The decoding in `Run` of `j2k.go`, for a buffer of bytes: `buttons` is
`b[0] + 256*b[1]`, the four axes are the two's complement 16-bit readings of
the little-endian pairs at offsets 2, 4, 6 and 8, `trigL` is `b[10]` and `trigR`
is `b[11]`. Each field is a function of its own bytes, the byte ranges of the
fields are pairwise disjoint, every decoded value is in the range of its type
(nothing is rejected), the result depends on the first 12 bytes only, and
every `ControllerState` is the decoding of exactly one sequence of 12 bytes. -/
theorem decodeState_layout (buffer : List Nat) (hb : IsBytes buffer) :
    (decodeState buffer).buttons = buffer.getD 0 0 + 256 * buffer.getD 1 0 ∧
    (decodeState buffer).leftX = int16 (buffer.getD 2 0 + 256 * buffer.getD 3 0) ∧
    (decodeState buffer).leftY = int16 (buffer.getD 4 0 + 256 * buffer.getD 5 0) ∧
    (decodeState buffer).rightX = int16 (buffer.getD 6 0 + 256 * buffer.getD 7 0) ∧
    (decodeState buffer).rightY = int16 (buffer.getD 8 0 + 256 * buffer.getD 9 0) ∧
    (decodeState buffer).trigL = buffer.getD 10 0 ∧
    (decodeState buffer).trigR = buffer.getD 11 0 ∧
    (∀ u : Nat, u < 65536 → int16 u = if u < 32768 then (u : Int) else (u : Int) - 65536) ∧
    (∀ (f : Nat) (other : List Nat), f < 7 → IsBytes other →
      (∀ i ∈ fieldOffsets.getD f [], other.getD i 0 = buffer.getD i 0) →
      (decodeState other).fields.getD f 0 = (decodeState buffer).fields.getD f 0) ∧
    fieldOffsets.Pairwise List.Disjoint ∧
    (decodeState buffer).InRange ∧
    decodeState (buffer.take 12) = decodeState buffer ∧
    (∀ s : ControllerState, s.InRange →
      ∃! p : List Nat, p.length = 12 ∧ IsBytes p ∧ decodeState p = s) := by
  have hf := decodeState_fields buffer hb
  refine ⟨by rw [hf], by rw [hf], by rw [hf], by rw [hf], by rw [hf], by rw [hf], by rw [hf],
    ?_, ?_, by simp [fieldOffsets], ?_, decodeState_take buffer hb,
    decodeState_bijective⟩
  · intro u hu
    unfold int16
    rw [Nat.mod_eq_of_lt hu]
  · intro f other hf7 ho hsame
    rw [hf, decodeState_fields other ho]
    interval_cases f <;>
      simp only [fieldOffsets, List.getD_cons_zero, List.getD_cons_succ, List.mem_cons,
        List.mem_singleton, List.not_mem_nil, or_false, forall_eq_or_imp, forall_eq] at hsame <;>
      simp only [ControllerState.fields, List.getD_cons_zero, List.getD_cons_succ, hsame]
  · rw [hf]
    have h := fun i => hb.getD_lt i
    refine ⟨?_, int16_range _, int16_range _, int16_range _, int16_range _, h 10, h 11⟩
    have h0 := h 0
    have h1 := h 1
    show buffer.getD 0 0 + 256 * buffer.getD 1 0 < 65536
    omega

theorem decodeState_layout_witness :
    decodeState [1, 0, 0, 128, 255, 127, 232, 3, 24, 252, 127, 128, 0, 0]
      = { buttons := 1, leftX := -32768, leftY := 32767, rightX := 1000, rightY := -1000,
          trigL := 127, trigR := 128 } ∧
    (decodeState [1, 0, 0, 128, 255, 127, 232, 3, 24, 252, 127, 128, 0, 0]).leftX
      = int16 (0 + 256 * 128) :=
  ⟨by decide,
   (decodeState_layout [1, 0, 0, 128, 255, 127, 232, 3, 24, 252, 127, 128, 0, 0]
      (by decide)).2.1⟩

/-! ## Sticks -/

theorem normalizeAxis_eq (value : Int) : normalizeAxis value = (value : ℝ) / 32768 := by
  unfold normalizeAxis
  norm_num

/-- The magnitude that the stick methods compute from the normalized axes. -/
theorem magnitude_normalizeAxis (x y : Int) :
    Real.sqrt (normalizeAxis x * normalizeAxis x + normalizeAxis y * normalizeAxis y)
      = Real.sqrt (((x : ℝ) / 32768) ^ 2 + ((y : ℝ) / 32768) ^ 2) := by
  rw [normalizeAxis_eq, normalizeAxis_eq, sq, sq]

theorem processLeftStick_in_deadzone (j : Joystick2Keyboard) (x y : ℝ)
    (h : Real.sqrt (x * x + y * y) < (j.deadzone : ℝ)) :
    processLeftStick j x y = applyRequests j
      [("lstick_left", false), ("lstick_right", false), ("lstick_up", false),
       ("lstick_down", false)] := by
  simp only [processLeftStick, applyRequests, List.foldl, h, if_true]
  have e : (if Real.sqrt (x * x + y * y) > 0 then (0 : ℝ) / Real.sqrt (x * x + y * y) else 0)
      = 0 := by
    split <;> simp
  rw [e]
  norm_num

theorem processRightStick_in_deadzone (j : Joystick2Keyboard) (x y : ℝ)
    (h : Real.sqrt (x * x + y * y) < (j.deadzone : ℝ)) :
    processRightStick j x y = applyRequests j
      [("rstick_left", false), ("rstick_right", false), ("rstick_up", false),
       ("rstick_down", false)] := by
  simp only [processRightStick, applyRequests, List.foldl, h, if_true]
  have e : (if Real.sqrt (x * x + y * y) > 0 then (0 : ℝ) / Real.sqrt (x * x + y * y) else 0)
      = 0 := by
    split <;> simp
  rw [e]
  norm_num

theorem processLeftStick_outside_deadzone (j : Joystick2Keyboard) (x y : ℝ)
    (hd : 0 < (j.deadzone : ℝ)) (h : (j.deadzone : ℝ) ≤ Real.sqrt (x * x + y * y)) :
    processLeftStick j x y = applyRequests j
      [("lstick_left", decide (x / Real.sqrt (x * x + y * y) < -0.5)),
       ("lstick_right", decide (x / Real.sqrt (x * x + y * y) > 0.5)),
       ("lstick_up", decide (y / Real.sqrt (x * x + y * y) < -0.5)),
       ("lstick_down", decide (y / Real.sqrt (x * x + y * y) > 0.5))] := by
  have h1 : ¬ Real.sqrt (x * x + y * y) < (j.deadzone : ℝ) := not_lt.mpr h
  have h2 : Real.sqrt (x * x + y * y) > 0 := lt_of_lt_of_le hd h
  simp only [processLeftStick, applyRequests, List.foldl, h1, h2, if_true, if_false]


/-- A request with desired state false never presses a key. -/
theorem updateKeyState_false_keeps_released (j : Joystick2Keyboard) (name : String) (k : Int)
    (h : j.buttonStates.get k = false) :
    (updateKeyState j name false).buttonStates.get k = false := by
  cases hl : j.keyMappings.lookup name with
  | none => rw [updateKeyState_unmapped j name false hl]; exact h
  | some key =>
    cases hs : j.buttonStates.get key
    · rw [updateKeyState_same j name key false hl hs]; exact h
    · rw [updateKeyState_release j name key hl hs]
      by_cases hk : k = key
      · subst hk; exact ButtonStates.get_set_self _ _ _
      · show (j.buttonStates.set key false).get k = false
        rw [ButtonStates.get_set_of_ne _ _ hk]; exact h

theorem applyRequests_cons (j : Joystick2Keyboard) (r : String × Bool)
    (reqs : List (String × Bool)) :
    applyRequests j (r :: reqs) = applyRequests (updateKeyState j r.1 r.2) reqs := rfl

theorem applyRequests_keyMappings (j : Joystick2Keyboard) (reqs : List (String × Bool)) :
    (applyRequests j reqs).keyMappings = j.keyMappings := by
  induction reqs generalizing j with
  | nil => rfl
  | cons r rest ih => rw [applyRequests_cons, ih, updateKeyState_keyMappings]

theorem applyRequests_false_keeps_released (j : Joystick2Keyboard)
    (reqs : List (String × Bool)) (hall : ∀ r ∈ reqs, r.2 = false) (k : Int)
    (h : j.buttonStates.get k = false) : (applyRequests j reqs).buttonStates.get k = false := by
  induction reqs generalizing j with
  | nil => exact h
  | cons r rest ih =>
    rw [applyRequests_cons]
    apply ih _ (fun r' hr' => hall r' (List.mem_cons_of_mem _ hr'))
    rw [hall r (List.mem_cons_self _ _)]
    exact updateKeyState_false_keeps_released j r.1 k h

/-- After a run of requests that are all false, the key of every requested
name that is mapped reads as released. -/
theorem applyRequests_false_releases (j : Joystick2Keyboard) (reqs : List (String × Bool))
    (hall : ∀ r ∈ reqs, r.2 = false) (name : String) (k : Int)
    (hmem : name ∈ reqs.map Prod.fst) (hl : j.keyMappings.lookup name = some k) :
    (applyRequests j reqs).buttonStates.get k = false := by
  induction reqs generalizing j with
  | nil => simp at hmem
  | cons r rest ih =>
    rw [applyRequests_cons]
    have hrest : ∀ r' ∈ rest, r'.2 = false := fun r' hr' => hall r' (List.mem_cons_of_mem _ hr')
    rw [List.map_cons, List.mem_cons] at hmem
    rcases hmem with hname | hmem
    · apply applyRequests_false_keeps_released _ rest hrest
      rw [← hname, hall r (List.mem_cons_self _ _)]
      exact updateKeyState_get j name k false hl
    · exact ih _ hrest hmem (by rw [updateKeyState_keyMappings]; exact hl)

/-- With every key released, requests that are all false change nothing. -/
theorem applyRequests_false_of_all_released (j : Joystick2Keyboard)
    (reqs : List (String × Bool)) (hall : ∀ r ∈ reqs, r.2 = false)
    (h : ∀ k, j.buttonStates.get k = false) : applyRequests j reqs = j := by
  induction reqs with
  | nil => rfl
  | cons r rest ih =>
    rw [applyRequests_cons, hall r (List.mem_cons_self _ _)]
    have e : updateKeyState j r.1 false = j := by
      cases hl : j.keyMappings.lookup r.1 with
      | none => exact updateKeyState_unmapped j r.1 false hl
      | some key => exact updateKeyState_same j r.1 key false hl (h key)
    rw [e]
    exact ih (fun r' hr' => hall r' (List.mem_cons_of_mem _ hr'))

/-- C10. When the normalized magnitude `m` of the axis pair is at least the
deadzone 0.2, `processLeftStick` requests left, right, up and down by the
thresholds `-0.5` and `0.5` on the components of the unit vector
`(nx / m, ny / m)`, where `nx = x / 32768` and `ny = y / 32768`. -/
theorem processLeftStick_directions (j : Joystick2Keyboard) (x y : Int) (hd : j.deadzone = 0.2)
    (hmag : 0.2 ≤ Real.sqrt (((x : ℝ) / 32768) ^ 2 + ((y : ℝ) / 32768) ^ 2)) :
    processLeftStick j (normalizeAxis x) (normalizeAxis y)
      = applyRequests j
        [("lstick_left", decide ((x : ℝ) / 32768
            / Real.sqrt (((x : ℝ) / 32768) ^ 2 + ((y : ℝ) / 32768) ^ 2) < -0.5)),
         ("lstick_right", decide ((x : ℝ) / 32768
            / Real.sqrt (((x : ℝ) / 32768) ^ 2 + ((y : ℝ) / 32768) ^ 2) > 0.5)),
         ("lstick_up", decide ((y : ℝ) / 32768
            / Real.sqrt (((x : ℝ) / 32768) ^ 2 + ((y : ℝ) / 32768) ^ 2) < -0.5)),
         ("lstick_down", decide ((y : ℝ) / 32768
            / Real.sqrt (((x : ℝ) / 32768) ^ 2 + ((y : ℝ) / 32768) ^ 2) > 0.5))] := by
  have hdz : (j.deadzone : ℝ) = 0.2 := by rw [hd]; norm_num
  have h := processLeftStick_outside_deadzone j (normalizeAxis x) (normalizeAxis y)
    (by rw [hdz]; norm_num) (by rw [hdz, magnitude_normalizeAxis]; exact hmag)
  rw [magnitude_normalizeAxis, normalizeAxis_eq, normalizeAxis_eq] at h
  rw [normalizeAxis_eq, normalizeAxis_eq]
  exact h

theorem processLeftStick_directions_witness :
    processLeftStick (initialState linuxKeys) (normalizeAxis (-32768)) (normalizeAxis 0)
      = applyRequests (initialState linuxKeys)
          [("lstick_left", true), ("lstick_right", false), ("lstick_up", false),
           ("lstick_down", false)] ∧
    processLeftStick (initialState linuxKeys) (normalizeAxis (-8192)) (normalizeAxis 0)
      = applyRequests (initialState linuxKeys)
          [("lstick_left", true), ("lstick_right", false), ("lstick_up", false),
           ("lstick_down", false)] := by
  have m1 : Real.sqrt ((((-32768 : Int) : ℝ) / 32768) ^ 2 + (((0 : Int) : ℝ) / 32768) ^ 2)
      = 1 := by
    norm_num
  have m2 : Real.sqrt ((((-8192 : Int) : ℝ) / 32768) ^ 2 + (((0 : Int) : ℝ) / 32768) ^ 2)
      = 1 / 4 := by
    have e : (((-8192 : Int) : ℝ) / 32768) ^ 2 + (((0 : Int) : ℝ) / 32768) ^ 2
        = (1 / 4 : ℝ) ^ 2 := by norm_num
    rw [e, Real.sqrt_sq (by norm_num)]
  have h1 := processLeftStick_directions (initialState linuxKeys) (-32768) 0 rfl
    (by rw [m1]; norm_num)
  have h2 := processLeftStick_directions (initialState linuxKeys) (-8192) 0 rfl
    (by rw [m2]; norm_num)
  rw [m1] at h1
  rw [m2] at h2
  norm_num at h1 h2
  exact ⟨h1, h2⟩

/-! ## Trigger threshold -/

theorem triggerPressed_iff (raw : Nat) : triggerPressed raw = true ↔ 128 ≤ raw := by
  unfold triggerPressed
  rw [decide_eq_true_eq]
  constructor
  · intro h
    have h2 : (127.5 : ℝ) < (raw : ℝ) := by
      have := (lt_div_iff₀ (by norm_num : (0 : ℝ) < 255.0)).mp h
      norm_num at this ⊢
      linarith
    by_contra hlt
    have hle : raw ≤ 127 := by omega
    have : (raw : ℝ) ≤ 127 := by exact_mod_cast hle
    linarith
  · intro h
    have : (128 : ℝ) ≤ (raw : ℝ) := by exact_mod_cast h
    rw [gt_iff_lt, lt_div_iff₀ (by norm_num : (0 : ℝ) < 255.0)]
    norm_num
    linarith

/-- The loop body of `Run` in `j2k.go` on a full report, spelled out. -/
theorem runCycle_full_read (j : Joystick2Keyboard) (buffer : List Nat) (r : ReadResult)
    (herr : r.err = none) (hn : 14 ≤ r.data.length) :
    (runCycle j buffer r).1 =
      updateKeyState
        (updateKeyState
          (processRightStick
            (processLeftStick
              (processButtons j (decodeState (readInto buffer r)).buttons)
              (normalizeAxis (decodeState (readInto buffer r)).leftX)
              (normalizeAxis (decodeState (readInto buffer r)).leftY))
            (normalizeAxis (decodeState (readInto buffer r)).rightX)
            (normalizeAxis (decodeState (readInto buffer r)).rightY))
          "lt" (triggerPressed (decodeState (readInto buffer r)).trigL))
        "rt" (triggerPressed (decodeState (readInto buffer r)).trigR) := by
  have hn2 : ¬ r.data.length < 14 := by omega
  simp only [runCycle, herr, hn2, if_false, triggerPressed]

/-- C11. For a trigger byte `raw`, the desired state that `Run` of `j2k.go` hands
to `updateKeyState` for the trigger is true exactly when `raw / 255 > 0.5`,
that is exactly when `raw >= 128`: 127 is not pressed, 128 is. -/
theorem trigger_threshold (j : Joystick2Keyboard) (buffer : List Nat) (r : ReadResult)
    (raw : Nat) (herr : r.err = none) (hn : 14 ≤ r.data.length) :
    (runCycle j buffer r).1 =
      updateKeyState
        (updateKeyState
          (processRightStick
            (processLeftStick
              (processButtons j (decodeState (readInto buffer r)).buttons)
              (normalizeAxis (decodeState (readInto buffer r)).leftX)
              (normalizeAxis (decodeState (readInto buffer r)).leftY))
            (normalizeAxis (decodeState (readInto buffer r)).rightX)
            (normalizeAxis (decodeState (readInto buffer r)).rightY))
          "lt" (triggerPressed (decodeState (readInto buffer r)).trigL))
        "rt" (triggerPressed (decodeState (readInto buffer r)).trigR) ∧
    (triggerPressed raw = true ↔ (raw : ℝ) / 255 > 0.5) ∧
    (triggerPressed raw = true ↔ 128 ≤ raw) ∧
    triggerPressed 127 = false ∧ triggerPressed 128 = true := by
  refine ⟨runCycle_full_read j buffer r herr hn, ?_, triggerPressed_iff raw, ?_, ?_⟩
  · unfold triggerPressed
    rw [decide_eq_true_eq]
    norm_num
  · have := triggerPressed_iff 127
    cases h : triggerPressed 127
    · rfl
    · exact absurd (this.mp h) (by decide)
  · exact (triggerPressed_iff 128).mpr (by decide)

theorem trigger_threshold_witness :
    (triggerPressed 200 = true ↔ (128 : Nat) ≤ 200) ∧
    triggerPressed 127 = false ∧ triggerPressed 128 = true :=
  have h := trigger_threshold (initialState linuxKeys) (List.replicate 64 0)
    ⟨[0, 0, 0, 0, 0, 0, 0, 0, 0, 0, 200, 127, 0, 0], none⟩ 200 rfl (by decide)
  ⟨h.2.2.1, h.2.2.2⟩

/-! ## Frame of `updateKeyState` -/

/-- A call of `updateKeyState` on a name mapped to `key` appends at most one
event, which is about `key`, and leaves the entries of the other keys as
they were. -/
theorem updateKeyState_frame (j : Joystick2Keyboard) (name : String) (key : Int) (p : Bool)
    (h : j.keyMappings.lookup name = some key) :
    (∃ evs : List KeyEvent, (updateKeyState j name p).kb = j.kb ++ evs ∧ evs.length ≤ 1 ∧
      ∀ e ∈ evs, e.key = key) ∧
    ∀ k, k ≠ key → (updateKeyState j name p).buttonStates k = j.buttonStates k := by
  cases hs : j.buttonStates.get key <;> cases p
  · rw [updateKeyState_same j name key false h hs]
    exact ⟨⟨[], by simp, by simp, by simp⟩, fun _ _ => rfl⟩
  · rw [updateKeyState_press j name key h hs]
    refine ⟨⟨[KeyEvent.press key], rfl, by simp, by simp [KeyEvent.key]⟩, fun k hk => ?_⟩
    simp [ButtonStates.set, hk]
  · rw [updateKeyState_release j name key h hs]
    refine ⟨⟨[KeyEvent.release key], rfl, by simp, by simp [KeyEvent.key]⟩, fun k hk => ?_⟩
    simp [ButtonStates.set, hk]
  · rw [updateKeyState_same j name key true h hs]
    exact ⟨⟨[], by simp, by simp, by simp⟩, fun _ _ => rfl⟩

/-- C15. For a mapped name `n` with key code `k` and a desired state `p`,
`updateKeyState(n, p)` sends at most one event and that event is for `k`;
afterwards `buttonStates[k]` is `p`, and the entry of every other key code is
unchanged. -/
theorem updateKeyState_frame_effect (j : Joystick2Keyboard) (n : String) (k : Int) (p : Bool)
    (hmap : j.keyMappings.lookup n = some k) :
    (∃ evs : List KeyEvent, (updateKeyState j n p).kb = j.kb ++ evs ∧ evs.length ≤ 1 ∧
      ∀ e ∈ evs, e.key = k) ∧
    (updateKeyState j n p).buttonStates.get k = p ∧
    (∀ k', k' ≠ k → (updateKeyState j n p).buttonStates k' = j.buttonStates k') ∧
    (∀ k', k' ≠ k → (updateKeyState j n p).buttonStates.get k' = j.buttonStates.get k') := by
  obtain ⟨h1, h2⟩ := updateKeyState_frame j n k p hmap
  refine ⟨h1, updateKeyState_get j n k p hmap, h2, fun k' hk' => ?_⟩
  unfold ButtonStates.get
  rw [h2 k' hk']

theorem updateKeyState_frame_effect_witness :
    (updateKeyState (initialState linuxKeys) "rstick_right" true).buttonStates.get 38 = true ∧
    (∀ k', k' ≠ 38 →
      (updateKeyState (initialState linuxKeys) "rstick_right" true).buttonStates k'
        = (initialState linuxKeys).buttonStates k') :=
  have h := updateKeyState_frame_effect (initialState linuxKeys) "rstick_right" 38 true
    (by decide)
  ⟨h.2.1, h.2.2.1⟩

/-! ## Shared key codes -/

theorem lookup_rstick_right (vk : keybd_event) :
    (defaultKeyMappings vk).lookup "rstick_right" = some vk.VK_L := by
  simp [defaultKeyMappings, List.lookup]

theorem lookup_lstick_click (vk : keybd_event) :
    (defaultKeyMappings vk).lookup "lstick_click" = some vk.VK_L := by
  simp [defaultKeyMappings, List.lookup]

theorem lookup_rbutton (vk : keybd_event) :
    (defaultKeyMappings vk).lookup "rbutton" = some vk.VK_R := by
  simp [defaultKeyMappings, List.lookup]

theorem lookup_rstick_click (vk : keybd_event) :
    (defaultKeyMappings vk).lookup "rstick_click" = some vk.VK_R := by
  simp [defaultKeyMappings, List.lookup]

/-- C18. The table `keyMappings` is not injective: `rstick_right` and
`lstick_click` both map to `VK_L`, `rbutton` and `rstick_click` both map to
`VK_R`. So from the state built by the constructor,
`updateKeyState("rstick_right", true)` then `updateKeyState("lstick_click", true)`
send one press of `VK_L` in all, and `updateKeyState("lstick_click", false)` after
them sends a release of `VK_L` and leaves it released, with no call that
sets `rstick_right` to false. -/
theorem shared_key_codes (vk : keybd_event) :
    (initialState vk).keyMappings.lookup "rstick_right" = some vk.VK_L ∧
    (initialState vk).keyMappings.lookup "lstick_click" = some vk.VK_L ∧
    (initialState vk).keyMappings.lookup "rbutton" = some vk.VK_R ∧
    (initialState vk).keyMappings.lookup "rstick_click" = some vk.VK_R ∧
    (Emulator.initialState vk).keyMappings = (initialState vk).keyMappings ∧
    (applyRequests (initialState vk) [("rstick_right", true), ("lstick_click", true)]).kb
      = [KeyEvent.press vk.VK_L] ∧
    (applyRequests (initialState vk)
        [("rstick_right", true), ("lstick_click", true), ("lstick_click", false)]).kb
      = [KeyEvent.press vk.VK_L, KeyEvent.release vk.VK_L] ∧
    (applyRequests (initialState vk)
        [("rstick_right", true), ("lstick_click", true), ("lstick_click", false)]).buttonStates.get
      vk.VK_L = false := by
  have h1 : (initialState vk).keyMappings.lookup "rstick_right" = some vk.VK_L :=
    lookup_rstick_right vk
  have h2 : (initialState vk).keyMappings.lookup "lstick_click" = some vk.VK_L :=
    lookup_lstick_click vk
  have s1 := updateKeyState_press (initialState vk) "rstick_right" vk.VK_L h1
    (initButtonStates_get _ _)
  have s2 : updateKeyState (updateKeyState (initialState vk) "rstick_right" true)
      "lstick_click" true = updateKeyState (initialState vk) "rstick_right" true :=
    updateKeyState_same _ "lstick_click" vk.VK_L true
      (by rw [updateKeyState_keyMappings]; exact h2)
      (updateKeyState_get _ "rstick_right" vk.VK_L true h1)
  have s3 := updateKeyState_release (updateKeyState (initialState vk) "rstick_right" true)
    "lstick_click" vk.VK_L (by rw [updateKeyState_keyMappings]; exact h2)
    (updateKeyState_get _ "rstick_right" vk.VK_L true h1)
  refine ⟨h1, h2, lookup_rbutton vk, lookup_rstick_click vk, rfl, ?_, ?_, ?_⟩
  · show (updateKeyState (updateKeyState (initialState vk) "rstick_right" true)
      "lstick_click" true).kb = _
    rw [s2, s1]
    rfl
  · show (updateKeyState (updateKeyState (updateKeyState (initialState vk) "rstick_right" true)
      "lstick_click" true) "lstick_click" false).kb = _
    rw [s2, s3, s1]
    rfl
  · show (updateKeyState (updateKeyState (updateKeyState (initialState vk) "rstick_right" true)
      "lstick_click" true) "lstick_click" false).buttonStates.get vk.VK_L = false
    rw [s2, s3]
    exact ButtonStates.get_set_self _ _ _

/-! ## Shape of the key state -/

theorem stopStep_keyMappings (j : Joystick2Keyboard) (key : Int) :
    (stopStep j key).keyMappings = j.keyMappings := by
  unfold stopStep
  split <;> rfl

theorem stopStep_isSome (j : Joystick2Keyboard) (key k : Int) :
    ((stopStep j key).buttonStates k).isSome = (j.buttonStates k).isSome := by
  by_cases hp : j.buttonStates key = some true
  · rw [stopStep_of_pressed j key hp]
    by_cases hk : k = key
    · subst hk; simp [ButtonStates.set, hp]
    · simp [ButtonStates.set, hk]
  · rw [stopStep_of_not_pressed j key hp]

theorem Stop_keyMappings (j : Joystick2Keyboard) (order : List Int) :
    (Stop j order).keyMappings = j.keyMappings := by
  have gen : ∀ (j0 : Joystick2Keyboard), (order.foldl stopStep j0).keyMappings = j0.keyMappings := by
    induction order with
    | nil => intro j0; rfl
    | cons a rest ih => intro j0; rw [List.foldl_cons, ih, stopStep_keyMappings]
  exact gen _

theorem Stop_isSome (j : Joystick2Keyboard) (order : List Int) (k : Int) :
    ((Stop j order).buttonStates k).isSome = (j.buttonStates k).isSome := by
  have gen : ∀ (j0 : Joystick2Keyboard),
      ((order.foldl stopStep j0).buttonStates k).isSome = (j0.buttonStates k).isSome := by
    induction order with
    | nil => intro j0; rfl
    | cons a rest ih => intro j0; rw [List.foldl_cons, ih, stopStep_isSome]
  exact gen _

theorem initialState_isSome (vk : keybd_event) (k : Int) :
    ((initialState vk).buttonStates k).isSome
      = decide (k ∈ (defaultKeyMappings vk).map Prod.snd) := by
  show (initButtonStates (defaultKeyMappings vk) k).isSome = _
  rw [initButtonStates_apply]
  split <;> simp [*]

theorem runCalls_append (j : Joystick2Keyboard) (calls : List Call) (c : Call) :
    runCalls j (calls ++ [c]) = Call.apply (runCalls j calls) c := by
  simp [runCalls, List.foldl_append]

/-- Along any calls of `updateKeyState` and `Stop` from the state built by the
constructor the table is the one of the constructor and the keys with an
entry are the values of the table. -/
theorem runCalls_shape (vk : keybd_event) (calls : List Call) :
    (runCalls (initialState vk) calls).keyMappings = defaultKeyMappings vk ∧
    ∀ k, ((runCalls (initialState vk) calls).buttonStates k).isSome
      = decide (k ∈ (defaultKeyMappings vk).map Prod.snd) := by
  induction calls using List.reverseRecOn with
  | nil => exact ⟨rfl, initialState_isSome vk⟩
  | append_singleton calls c ih =>
    rw [runCalls_append]
    obtain ⟨hk, hs⟩ := ih
    have hentry : MappedKeysHaveEntry (runCalls (initialState vk) calls) := by
      intro name k hl
      rw [hk] at hl
      rw [hs k]
      exact decide_eq_true (mem_values_of_lookup hl)
    cases c with
    | updateKeyState name p =>
      refine ⟨by rw [← hk]; exact updateKeyState_keyMappings _ _ _, fun k => ?_⟩
      show ((updateKeyState _ name p).buttonStates k).isSome = _
      rw [updateKeyState_isSome _ hentry, hs k]
    | Stop order =>
      refine ⟨by rw [← hk]; exact Stop_keyMappings _ _, fun k => ?_⟩
      show ((Stop _ order).buttonStates k).isSome = _
      rw [Stop_isSome, hs k]

/-- The map that the constructor builds does not depend on the order in which
its loop visits `keyMappings`. -/
theorem initButtonStates_perm (l₁ l₂ : List (String × Int)) (h : l₁.Perm l₂) :
    initButtonStates l₁ = initButtonStates l₂ := by
  funext k
  rw [initButtonStates_apply, initButtonStates_apply]
  have : k ∈ l₁.map Prod.snd ↔ k ∈ l₂.map Prod.snd := (h.map Prod.snd).mem_iff
  simp only [this]

/-- C12. In the state built by the constructor `buttonStates` has an entry for
exactly the key codes that are values of `keyMappings`, so the distinct
values list its entries each once, and every entry is false. Every later
`updateKeyState` and `Stop` call keeps the set of keys that have an entry
and keeps `keyMappings`. -/
theorem keyState_shape (vk : keybd_event) (calls : List Call) (k : Int) :
    ((initialState vk).buttonStates k
      = if k ∈ (defaultKeyMappings vk).map Prod.snd then some false else none) ∧
    RangeOrder (initialState vk).buttonStates ((defaultKeyMappings vk).map Prod.snd).dedup ∧
    (((runCalls (initialState vk) calls).buttonStates k).isSome
      = ((initialState vk).buttonStates k).isSome) ∧
    RangeOrder (runCalls (initialState vk) calls).buttonStates
      ((defaultKeyMappings vk).map Prod.snd).dedup ∧
    (runCalls (initialState vk) calls).keyMappings = (initialState vk).keyMappings := by
  obtain ⟨h1, h2⟩ := runCalls_shape vk calls
  refine ⟨initButtonStates_apply _ _, ⟨List.nodup_dedup _, fun k' => ?_⟩,
    by rw [h2 k, initialState_isSome], ⟨List.nodup_dedup _, fun k' => ?_⟩, h1⟩
  · rw [initialState_isSome]; simp
  · rw [h2 k']; simp

/-! ## Intents of the sticks -/

theorem processLeftStick_eq_intents (j : Joystick2Keyboard) (x y : ℝ) :
    processLeftStick j x y = applyRequests j
      [("lstick_left", (stickIntents j.deadzone x y).left),
       ("lstick_right", (stickIntents j.deadzone x y).right),
       ("lstick_up", (stickIntents j.deadzone x y).up),
       ("lstick_down", (stickIntents j.deadzone x y).down)] := rfl

theorem processRightStick_eq_intents (j : Joystick2Keyboard) (x y : ℝ) :
    processRightStick j x y = applyRequests j
      [("rstick_left", (stickIntents j.deadzone x y).left),
       ("rstick_right", (stickIntents j.deadzone x y).right),
       ("rstick_up", (stickIntents j.deadzone x y).up),
       ("rstick_down", (stickIntents j.deadzone x y).down)] := rfl

/-- Left and right are never both requested, nor up and down. -/
theorem stickIntents_exclusive (deadzone : ℚ) (x y : ℝ) :
    ¬ ((stickIntents deadzone x y).left = true ∧ (stickIntents deadzone x y).right = true) ∧
    ¬ ((stickIntents deadzone x y).up = true ∧ (stickIntents deadzone x y).down = true) := by
  simp only [stickIntents, decide_eq_true_eq]
  constructor
  · rintro ⟨h1, h2⟩
    norm_num at h1 h2
    linarith
  · rintro ⟨h1, h2⟩
    norm_num at h1 h2
    linarith

theorem stickIntents_in_deadzone (deadzone : ℚ) (x y : ℝ)
    (h : Real.sqrt (x * x + y * y) < (deadzone : ℝ)) :
    stickIntents deadzone x y = ⟨false, false, false, false⟩ := by
  have e : (if Real.sqrt (x * x + y * y) > 0 then (0 : ℝ) / Real.sqrt (x * x + y * y) else 0)
      = 0 := by
    split <;> simp
  simp only [stickIntents, h, if_true, e]
  norm_num

theorem stickIntents_outside_deadzone (deadzone : ℚ) (x y : ℝ)
    (hd : 0 < (deadzone : ℝ)) (h : (deadzone : ℝ) ≤ Real.sqrt (x * x + y * y)) :
    stickIntents deadzone x y =
      ⟨decide (x / Real.sqrt (x * x + y * y) < -0.5),
       decide (x / Real.sqrt (x * x + y * y) > 0.5),
       decide (y / Real.sqrt (x * x + y * y) < -0.5),
       decide (y / Real.sqrt (x * x + y * y) > 0.5)⟩ := by
  have h1 : ¬ Real.sqrt (x * x + y * y) < (deadzone : ℝ) := not_lt.mpr h
  have h2 : Real.sqrt (x * x + y * y) > 0 := lt_of_lt_of_le hd h
  simp only [stickIntents, h1, h2, if_true, if_false]

/-- The rescaled vector has length one. -/
theorem unit_vector (x y : ℝ) (hm : 0 < Real.sqrt (x * x + y * y)) :
    (x / Real.sqrt (x * x + y * y)) ^ 2 + (y / Real.sqrt (x * x + y * y)) ^ 2 = 1 := by
  have hnn : 0 ≤ x * x + y * y := add_nonneg (mul_self_nonneg x) (mul_self_nonneg y)
  have hsq : Real.sqrt (x * x + y * y) * Real.sqrt (x * x + y * y) = x * x + y * y :=
    Real.mul_self_sqrt hnn
  have hpos : 0 < x * x + y * y := by
    rw [← hsq]; exact mul_pos hm hm
  rw [div_pow, div_pow, ← add_div, sq (Real.sqrt (x * x + y * y)), hsq,
    div_eq_one_iff_eq (ne_of_gt hpos)]
  ring

/-- Outside the deadzone one of the four directions is requested. -/
theorem stickIntents_some_direction (deadzone : ℚ) (x y : ℝ)
    (hd : 0 < (deadzone : ℝ)) (h : (deadzone : ℝ) ≤ Real.sqrt (x * x + y * y)) :
    (stickIntents deadzone x y).left = true ∨ (stickIntents deadzone x y).right = true ∨
    (stickIntents deadzone x y).up = true ∨ (stickIntents deadzone x y).down = true := by
  have hm : 0 < Real.sqrt (x * x + y * y) := lt_of_lt_of_le hd h
  have hu := unit_vector x y hm
  rw [stickIntents_outside_deadzone deadzone x y hd h]
  simp only [decide_eq_true_eq]
  by_contra hcon
  simp only [not_or, not_lt] at hcon
  obtain ⟨h1, h2, h3, h4⟩ := hcon
  norm_num at h1 h2 h3 h4
  nlinarith [hu]

theorem stickIntents_count_le_two (deadzone : ℚ) (x y : ℝ) :
    (stickIntents deadzone x y).count ≤ 2 := by
  obtain ⟨h1, h2⟩ := stickIntents_exclusive deadzone x y
  unfold StickIntents.count
  revert h1 h2
  cases (stickIntents deadzone x y).left <;> cases (stickIntents deadzone x y).right <;>
    cases (stickIntents deadzone x y).up <;> cases (stickIntents deadzone x y).down <;> simp

theorem stickIntents_count_pos (deadzone : ℚ) (x y : ℝ)
    (hd : 0 < (deadzone : ℝ)) (h : (deadzone : ℝ) ≤ Real.sqrt (x * x + y * y)) :
    1 ≤ (stickIntents deadzone x y).count := by
  have := stickIntents_some_direction deadzone x y hd h
  unfold StickIntents.count
  revert this
  cases (stickIntents deadzone x y).left <;> cases (stickIntents deadzone x y).right <;>
    cases (stickIntents deadzone x y).up <;> cases (stickIntents deadzone x y).down <;> simp

/-- C20. For an axis pair whose normalized magnitude is at least the deadzone
0.2, `processLeftStick` requests true for at least one and at most two of
left, right, up and down; and for every axis pair the four requests are all
false if and only if the magnitude is below 0.2. -/
theorem direction_outside_deadzone (j : Joystick2Keyboard) (x y : Int)
    (hd : j.deadzone = 0.2) :
    processLeftStick j (normalizeAxis x) (normalizeAxis y) = applyRequests j
      [("lstick_left", (stickIntents j.deadzone (normalizeAxis x) (normalizeAxis y)).left),
       ("lstick_right", (stickIntents j.deadzone (normalizeAxis x) (normalizeAxis y)).right),
       ("lstick_up", (stickIntents j.deadzone (normalizeAxis x) (normalizeAxis y)).up),
       ("lstick_down", (stickIntents j.deadzone (normalizeAxis x) (normalizeAxis y)).down)] ∧
    (0.2 ≤ Real.sqrt (((x : ℝ) / 32768) ^ 2 + ((y : ℝ) / 32768) ^ 2) →
      1 ≤ (stickIntents j.deadzone (normalizeAxis x) (normalizeAxis y)).count ∧
      (stickIntents j.deadzone (normalizeAxis x) (normalizeAxis y)).count ≤ 2) ∧
    (((stickIntents j.deadzone (normalizeAxis x) (normalizeAxis y)).left = false ∧
      (stickIntents j.deadzone (normalizeAxis x) (normalizeAxis y)).right = false ∧
      (stickIntents j.deadzone (normalizeAxis x) (normalizeAxis y)).up = false ∧
      (stickIntents j.deadzone (normalizeAxis x) (normalizeAxis y)).down = false) ↔
      Real.sqrt (((x : ℝ) / 32768) ^ 2 + ((y : ℝ) / 32768) ^ 2) < 0.2) := by
  have hdz : (j.deadzone : ℝ) = 0.2 := by rw [hd]; norm_num
  have hpos : 0 < (j.deadzone : ℝ) := by rw [hdz]; norm_num
  rw [← magnitude_normalizeAxis, ← hdz]
  refine ⟨processLeftStick_eq_intents j _ _, fun hm =>
    ⟨stickIntents_count_pos _ _ _ hpos hm, stickIntents_count_le_two _ _ _⟩, ?_, ?_⟩
  · rintro ⟨h1, h2, h3, h4⟩
    by_contra hnot
    have hm := not_lt.mp hnot
    rcases stickIntents_some_direction j.deadzone _ _ hpos hm with h | h | h | h
    · rw [h1] at h; exact Bool.false_ne_true h
    · rw [h2] at h; exact Bool.false_ne_true h
    · rw [h3] at h; exact Bool.false_ne_true h
    · rw [h4] at h; exact Bool.false_ne_true h
  · intro hm
    rw [stickIntents_in_deadzone j.deadzone _ _ hm]
    exact ⟨rfl, rfl, rfl, rfl⟩

theorem direction_outside_deadzone_witness :
    1 ≤ (stickIntents (initialState linuxKeys).deadzone (normalizeAxis 20000)
        (normalizeAxis (-20000))).count ∧
    (stickIntents (initialState linuxKeys).deadzone (normalizeAxis 20000)
        (normalizeAxis (-20000))).count ≤ 2 :=
  (direction_outside_deadzone (initialState linuxKeys) 20000 (-20000) rfl).2.1
    ((Real.le_sqrt' (by norm_num)).mpr (by norm_num))

/-! ## Opposing directions -/

theorem updateKeyState_get_of_ne (j : Joystick2Keyboard) (name : String) (key k : Int)
    (p : Bool) (h : j.keyMappings.lookup name = some key) (hk : k ≠ key) :
    (updateKeyState j name p).buttonStates.get k = j.buttonStates.get k := by
  unfold ButtonStates.get
  rw [(updateKeyState_frame j name key p h).2 k hk]

theorem lookup_lstick_left (vk : keybd_event) :
    (defaultKeyMappings vk).lookup "lstick_left" = some vk.VK_A := by
  simp [defaultKeyMappings, List.lookup]

theorem lookup_lstick_right (vk : keybd_event) :
    (defaultKeyMappings vk).lookup "lstick_right" = some vk.VK_D := by
  simp [defaultKeyMappings, List.lookup]

theorem lookup_lstick_up (vk : keybd_event) :
    (defaultKeyMappings vk).lookup "lstick_up" = some vk.VK_W := by
  simp [defaultKeyMappings, List.lookup]

theorem lookup_lstick_down (vk : keybd_event) :
    (defaultKeyMappings vk).lookup "lstick_down" = some vk.VK_S := by
  simp [defaultKeyMappings, List.lookup]

/-- With the table of the constructor and distinct key codes, after
`processLeftStick` the keys `VK_A`, `VK_D`, `VK_W`, `VK_S` read as the four
requests. -/
theorem processLeftStick_keys (vk : keybd_event) (j : Joystick2Keyboard) (x y : ℝ)
    (hk : j.keyMappings = defaultKeyMappings vk) (hvk : vk.Distinct) :
    (processLeftStick j x y).buttonStates.get vk.VK_A = (stickIntents j.deadzone x y).left ∧
    (processLeftStick j x y).buttonStates.get vk.VK_D = (stickIntents j.deadzone x y).right ∧
    (processLeftStick j x y).buttonStates.get vk.VK_W = (stickIntents j.deadzone x y).up ∧
    (processLeftStick j x y).buttonStates.get vk.VK_S = (stickIntents j.deadzone x y).down := by
  rw [processLeftStick_eq_intents]
  generalize (stickIntents j.deadzone x y).left = l
  generalize (stickIntents j.deadzone x y).right = r
  generalize (stickIntents j.deadzone x y).up = u
  generalize (stickIntents j.deadzone x y).down = d
  show (updateKeyState (updateKeyState (updateKeyState (updateKeyState j "lstick_left" l)
      "lstick_right" r) "lstick_up" u) "lstick_down" d).buttonStates.get vk.VK_A = l ∧
    (updateKeyState (updateKeyState (updateKeyState (updateKeyState j "lstick_left" l)
      "lstick_right" r) "lstick_up" u) "lstick_down" d).buttonStates.get vk.VK_D = r ∧
    (updateKeyState (updateKeyState (updateKeyState (updateKeyState j "lstick_left" l)
      "lstick_right" r) "lstick_up" u) "lstick_down" d).buttonStates.get vk.VK_W = u ∧
    (updateKeyState (updateKeyState (updateKeyState (updateKeyState j "lstick_left" l)
      "lstick_right" r) "lstick_up" u) "lstick_down" d).buttonStates.get vk.VK_S = d
  have l1 : j.keyMappings.lookup "lstick_left" = some vk.VK_A := by
    rw [hk]; exact lookup_lstick_left vk
  have l2 : (updateKeyState j "lstick_left" l).keyMappings.lookup "lstick_right"
      = some vk.VK_D := by
    rw [updateKeyState_keyMappings, hk]; exact lookup_lstick_right vk
  have l3 : (updateKeyState (updateKeyState j "lstick_left" l) "lstick_right"
      r).keyMappings.lookup "lstick_up" = some vk.VK_W := by
    rw [updateKeyState_keyMappings, updateKeyState_keyMappings, hk]; exact lookup_lstick_up vk
  have l4 : (updateKeyState (updateKeyState (updateKeyState j "lstick_left" l) "lstick_right"
      r) "lstick_up" u).keyMappings.lookup "lstick_down" = some vk.VK_S := by
    rw [updateKeyState_keyMappings, updateKeyState_keyMappings, updateKeyState_keyMappings, hk]
    exact lookup_lstick_down vk
  have ad : vk.VK_A ≠ vk.VK_D := hvk.ne 0 1 (by decide)
  have aw : vk.VK_A ≠ vk.VK_W := hvk.ne 0 2 (by decide)
  have as : vk.VK_A ≠ vk.VK_S := hvk.ne 0 3 (by decide)
  have dw : vk.VK_D ≠ vk.VK_W := hvk.ne 1 2 (by decide)
  have ds : vk.VK_D ≠ vk.VK_S := hvk.ne 1 3 (by decide)
  have ws : vk.VK_W ≠ vk.VK_S := hvk.ne 2 3 (by decide)
  refine ⟨?_, ?_, ?_, ?_⟩
  · rw [updateKeyState_get_of_ne _ _ _ _ d l4 as, updateKeyState_get_of_ne _ _ _ _ u l3 aw,
      updateKeyState_get_of_ne _ _ _ _ r l2 ad]
    exact updateKeyState_get j _ _ l l1
  · rw [updateKeyState_get_of_ne _ _ _ _ d l4 ds, updateKeyState_get_of_ne _ _ _ _ u l3 dw]
    exact updateKeyState_get _ _ _ r l2
  · rw [updateKeyState_get_of_ne _ _ _ _ d l4 ws]
    exact updateKeyState_get _ _ _ u l3
  · exact updateKeyState_get _ _ _ d l4

/-- C14. For every prior key state and every pair `(x, y)`, `processLeftStick`
never requests left and right both true, nor up and down both true; and
with the table of the constructor and distinct key codes, after it returns
`VK_A` and `VK_D` are not both pressed, nor are `VK_W` and `VK_S`. -/
theorem opposing_directions_exclusive (vk : keybd_event) (j : Joystick2Keyboard) (x y : ℝ)
    (hk : j.keyMappings = defaultKeyMappings vk) (hvk : vk.Distinct) :
    processLeftStick j x y = applyRequests j
      [("lstick_left", (stickIntents j.deadzone x y).left),
       ("lstick_right", (stickIntents j.deadzone x y).right),
       ("lstick_up", (stickIntents j.deadzone x y).up),
       ("lstick_down", (stickIntents j.deadzone x y).down)] ∧
    ¬ ((stickIntents j.deadzone x y).left = true ∧ (stickIntents j.deadzone x y).right = true) ∧
    ¬ ((stickIntents j.deadzone x y).up = true ∧ (stickIntents j.deadzone x y).down = true) ∧
    ¬ ((processLeftStick j x y).buttonStates.get vk.VK_A = true ∧
       (processLeftStick j x y).buttonStates.get vk.VK_D = true) ∧
    ¬ ((processLeftStick j x y).buttonStates.get vk.VK_W = true ∧
       (processLeftStick j x y).buttonStates.get vk.VK_S = true) := by
  obtain ⟨e1, e2⟩ := stickIntents_exclusive j.deadzone x y
  obtain ⟨k1, k2, k3, k4⟩ := processLeftStick_keys vk j x y hk hvk
  refine ⟨processLeftStick_eq_intents j x y, e1, e2, ?_, ?_⟩
  · rw [k1, k2]; exact e1
  · rw [k3, k4]; exact e2

theorem opposing_directions_exclusive_witness :
    ¬ ((processLeftStick (updateKeyState (initialState linuxKeys) "lstick_right" true)
          (normalizeAxis (-32768)) (normalizeAxis 0)).buttonStates.get 30 = true ∧
       (processLeftStick (updateKeyState (initialState linuxKeys) "lstick_right" true)
          (normalizeAxis (-32768)) (normalizeAxis 0)).buttonStates.get 32 = true) :=
  (opposing_directions_exclusive linuxKeys
    (updateKeyState (initialState linuxKeys) "lstick_right" true)
    (normalizeAxis (-32768)) (normalizeAxis 0) (updateKeyState_keyMappings _ _ _)
    (by decide)).2.2.2.1

/-! ## The right stick and its keys -/

theorem stickIntents_fully_down (deadzone : ℚ) (c : ℝ) (hd : 0 < (deadzone : ℝ))
    (hc : (deadzone : ℝ) ≤ c) : stickIntents deadzone 0 c = ⟨false, false, false, true⟩ := by
  have hc0 : 0 < c := lt_of_lt_of_le hd hc
  have hm : Real.sqrt (0 * 0 + c * c) = c := by
    rw [zero_mul, zero_add, Real.sqrt_mul_self hc0.le]
  rw [stickIntents_outside_deadzone deadzone 0 c hd (by rw [hm]; exact hc), hm,
    div_self (ne_of_gt hc0)]
  norm_num

theorem stickIntents_fully_up (deadzone : ℚ) (c : ℝ) (hd : 0 < (deadzone : ℝ))
    (hc : (deadzone : ℝ) ≤ c) : stickIntents deadzone 0 (-c) = ⟨false, false, true, false⟩ := by
  have hc0 : 0 < c := lt_of_lt_of_le hd hc
  have hm : Real.sqrt (0 * 0 + -c * -c) = c := by
    rw [zero_mul, zero_add, neg_mul_neg, Real.sqrt_mul_self hc0.le]
  rw [stickIntents_outside_deadzone deadzone 0 (-c) hd (by rw [hm]; exact hc), hm,
    neg_div, div_self (ne_of_gt hc0)]
  norm_num

theorem stickIntents_fully_left (deadzone : ℚ) (c : ℝ) (hd : 0 < (deadzone : ℝ))
    (hc : (deadzone : ℝ) ≤ c) : stickIntents deadzone (-c) 0 = ⟨true, false, false, false⟩ := by
  have hc0 : 0 < c := lt_of_lt_of_le hd hc
  have hm : Real.sqrt (-c * -c + 0 * 0) = c := by
    rw [zero_mul, add_zero, neg_mul_neg, Real.sqrt_mul_self hc0.le]
  rw [stickIntents_outside_deadzone deadzone (-c) 0 hd (by rw [hm]; exact hc), hm,
    neg_div, div_self (ne_of_gt hc0)]
  norm_num

theorem stickIntents_fully_right (deadzone : ℚ) (c : ℝ) (hd : 0 < (deadzone : ℝ))
    (hc : (deadzone : ℝ) ≤ c) : stickIntents deadzone c 0 = ⟨false, true, false, false⟩ := by
  have hc0 : 0 < c := lt_of_lt_of_le hd hc
  have hm : Real.sqrt (c * c + 0 * 0) = c := by
    rw [zero_mul, add_zero, Real.sqrt_mul_self hc0.le]
  rw [stickIntents_outside_deadzone deadzone c 0 hd (by rw [hm]; exact hc), hm,
    div_self (ne_of_gt hc0)]
  norm_num

theorem initialState_deadzone_pos (vk : keybd_event) :
    0 < (((initialState vk).deadzone : ℚ) : ℝ) := by
  show 0 < (((0.2 : ℚ)) : ℝ)
  norm_num

theorem lookup_rstick_down (vk : keybd_event) :
    (defaultKeyMappings vk).lookup "rstick_down" = none := by
  simp [defaultKeyMappings, List.lookup]

theorem lookup_rsdown (vk : keybd_event) :
    (defaultKeyMappings vk).lookup "rsdown" = some vk.VK_K := by
  simp [defaultKeyMappings, List.lookup]

/-- C13. The right stick fully down, from the state built by the constructor:
the four requests are false, false, false, true, the true one under the name
`rstick_down`, which is not a key of `keyMappings` (the table has `rsdown` for
`VK_K`), so `processRightStick` returns the state as it was and sends no press
of `VK_K`. Fully up, left and right do send the press of `VK_I`, `VK_J` and
`VK_L`, and the left stick fully down sends the press of `VK_S`. -/
theorem rightStick_down_sends_nothing (vk : keybd_event) :
    stickIntents (initialState vk).deadzone (normalizeAxis 0) (normalizeAxis 32767)
      = ⟨false, false, false, true⟩ ∧
    (initialState vk).keyMappings.lookup "rstick_down" = none ∧
    (initialState vk).keyMappings.lookup "rsdown" = some vk.VK_K ∧
    processRightStick (initialState vk) (normalizeAxis 0) (normalizeAxis 32767)
      = initialState vk ∧
    (processRightStick (initialState vk) (normalizeAxis 0) (normalizeAxis 32767)).kb = [] ∧
    (processRightStick (initialState linuxKeys) (normalizeAxis 0) (normalizeAxis (-32768))).kb
      = [KeyEvent.press linuxKeys.VK_I] ∧
    (processRightStick (initialState linuxKeys) (normalizeAxis (-32768)) (normalizeAxis 0)).kb
      = [KeyEvent.press linuxKeys.VK_J] ∧
    (processRightStick (initialState linuxKeys) (normalizeAxis 32767) (normalizeAxis 0)).kb
      = [KeyEvent.press linuxKeys.VK_L] ∧
    (processLeftStick (initialState linuxKeys) (normalizeAxis 0) (normalizeAxis 32767)).kb
      = [KeyEvent.press linuxKeys.VK_S] := by
  have h0 : normalizeAxis 0 = 0 := by rw [normalizeAxis_eq]; norm_num
  have hmax : ((initialState vk).deadzone : ℝ) ≤ normalizeAxis 32767 := by
    rw [normalizeAxis_eq]
    show (((0.2 : ℚ)) : ℝ) ≤ _
    norm_num
  have hmaxL : ((initialState linuxKeys).deadzone : ℝ) ≤ normalizeAxis 32767 := by
    rw [normalizeAxis_eq]
    show (((0.2 : ℚ)) : ℝ) ≤ _
    norm_num
  have hmin : normalizeAxis (-32768) = -1 := by rw [normalizeAxis_eq]; norm_num
  have hone : ((initialState linuxKeys).deadzone : ℝ) ≤ 1 := by
    show (((0.2 : ℚ)) : ℝ) ≤ _
    norm_num
  have hdown := stickIntents_fully_down (initialState vk).deadzone (normalizeAxis 32767)
    (initialState_deadzone_pos vk) hmax
  have hstay : processRightStick (initialState vk) (normalizeAxis 0) (normalizeAxis 32767)
      = initialState vk := by
    rw [processRightStick_eq_intents, h0, hdown]
    show updateKeyState (applyRequests (initialState vk)
      [("rstick_left", false), ("rstick_right", false), ("rstick_up", false)])
      "rstick_down" true = initialState vk
    rw [applyRequests_false_of_all_released (initialState vk) _ (by decide)
      (fun k => initButtonStates_get _ k)]
    exact updateKeyState_unmapped _ _ _ (lookup_rstick_down vk)
  refine ⟨by rw [h0]; exact hdown, lookup_rstick_down vk, lookup_rsdown vk, hstay,
    by rw [hstay]; rfl, ?_, ?_, ?_, ?_⟩
  · rw [processRightStick_eq_intents, h0, hmin,
      stickIntents_fully_up _ 1 (initialState_deadzone_pos _) hone]
    decide
  · rw [processRightStick_eq_intents, h0, hmin,
      stickIntents_fully_left _ 1 (initialState_deadzone_pos _) hone]
    decide
  · rw [processRightStick_eq_intents, h0,
      stickIntents_fully_right _ _ (initialState_deadzone_pos _) hmaxL]
    decide
  · rw [processLeftStick_eq_intents, h0,
      stickIntents_fully_down _ _ (initialState_deadzone_pos _) hmaxL]
    decide

/-! ## Keys that the pipeline of `j2k.go` cannot reach -/

/-- The names of the pipeline do not map to `VK_K`, `VK_R`, `VK_T`, `VK_Y` or
`VK_U` when the key codes are distinct. -/
theorem pipeline_lookup_ne (vk : keybd_event) (hvk : vk.Distinct) (k : Int)
    (hk : k ∈ [vk.VK_K, vk.VK_R, vk.VK_T, vk.VK_Y, vk.VK_U]) (name : String)
    (h : name ∈ pipelineNames) : (defaultKeyMappings vk).lookup name ≠ some k := by
  have key : ∀ i : Fin 22, i ∉ ([7, 16, 17, 18, 19] : List (Fin 22)) →
      vk.codes.get ⟨i.1, i.2⟩ = k → False := by
    intro i hi heq
    simp only [List.mem_cons, List.mem_singleton, List.not_mem_nil, or_false] at hk
    rcases hk with rfl | rfl | rfl | rfl | rfl
    · exact hi (by
        have := not_not.mp (fun hne => hvk.ne i 7 hne heq)
        rw [this]; decide)
    · exact hi (by
        have := not_not.mp (fun hne => hvk.ne i 16 hne heq)
        rw [this]; decide)
    · exact hi (by
        have := not_not.mp (fun hne => hvk.ne i 17 hne heq)
        rw [this]; decide)
    · exact hi (by
        have := not_not.mp (fun hne => hvk.ne i 18 hne heq)
        rw [this]; decide)
    · exact hi (by
        have := not_not.mp (fun hne => hvk.ne i 19 hne heq)
        rw [this]; decide)
  simp only [pipelineNames, List.mem_cons, List.mem_singleton, List.not_mem_nil,
    or_false] at h
  rcases h with rfl | rfl | rfl | rfl | rfl | rfl | rfl | rfl | rfl | rfl | rfl | rfl |
    rfl | rfl | rfl | rfl | rfl | rfl | rfl | rfl | rfl | rfl | rfl | rfl
  · rw [show (defaultKeyMappings vk).lookup "dpad_up" = some vk.VK_UP by
      simp [defaultKeyMappings, List.lookup]]
    exact fun h => key 8 (by decide) (Option.some.inj h)
  · rw [show (defaultKeyMappings vk).lookup "dpad_down" = some vk.VK_DOWN by
      simp [defaultKeyMappings, List.lookup]]
    exact fun h => key 9 (by decide) (Option.some.inj h)
  · rw [show (defaultKeyMappings vk).lookup "dpad_left" = some vk.VK_LEFT by
      simp [defaultKeyMappings, List.lookup]]
    exact fun h => key 10 (by decide) (Option.some.inj h)
  · rw [show (defaultKeyMappings vk).lookup "dpad_right" = some vk.VK_RIGHT by
      simp [defaultKeyMappings, List.lookup]]
    exact fun h => key 11 (by decide) (Option.some.inj h)
  · rw [show (defaultKeyMappings vk).lookup "a" = some vk.VK_SPACE by
      simp [defaultKeyMappings, List.lookup]]
    exact fun h => key 12 (by decide) (Option.some.inj h)
  · rw [show (defaultKeyMappings vk).lookup "b" = some vk.VK_E by
      simp [defaultKeyMappings, List.lookup]]
    exact fun h => key 13 (by decide) (Option.some.inj h)
  · rw [show (defaultKeyMappings vk).lookup "x" = some vk.VK_F by
      simp [defaultKeyMappings, List.lookup]]
    exact fun h => key 15 (by decide) (Option.some.inj h)
  · rw [show (defaultKeyMappings vk).lookup "y" = some vk.VK_Q by
      simp [defaultKeyMappings, List.lookup]]
    exact fun h => key 14 (by decide) (Option.some.inj h)
  · rw [show (defaultKeyMappings vk).lookup "lb" = none by
      simp [defaultKeyMappings, List.lookup]]
    exact fun h => Option.noConfusion h
  · rw [show (defaultKeyMappings vk).lookup "rb" = none by
      simp [defaultKeyMappings, List.lookup]]
    exact fun h => Option.noConfusion h
  · rw [show (defaultKeyMappings vk).lookup "select" = some vk.VK_TAB by
      simp [defaultKeyMappings, List.lookup]]
    exact fun h => key 20 (by decide) (Option.some.inj h)
  · rw [show (defaultKeyMappings vk).lookup "start" = some vk.VK_ENTER by
      simp [defaultKeyMappings, List.lookup]]
    exact fun h => key 21 (by decide) (Option.some.inj h)
  · rw [show (defaultKeyMappings vk).lookup "l3" = none by
      simp [defaultKeyMappings, List.lookup]]
    exact fun h => Option.noConfusion h
  · rw [show (defaultKeyMappings vk).lookup "r3" = none by
      simp [defaultKeyMappings, List.lookup]]
    exact fun h => Option.noConfusion h
  · rw [show (defaultKeyMappings vk).lookup "lstick_left" = some vk.VK_A by
      simp [defaultKeyMappings, List.lookup]]
    exact fun h => key 0 (by decide) (Option.some.inj h)
  · rw [show (defaultKeyMappings vk).lookup "lstick_right" = some vk.VK_D by
      simp [defaultKeyMappings, List.lookup]]
    exact fun h => key 1 (by decide) (Option.some.inj h)
  · rw [show (defaultKeyMappings vk).lookup "lstick_up" = some vk.VK_W by
      simp [defaultKeyMappings, List.lookup]]
    exact fun h => key 2 (by decide) (Option.some.inj h)
  · rw [show (defaultKeyMappings vk).lookup "lstick_down" = some vk.VK_S by
      simp [defaultKeyMappings, List.lookup]]
    exact fun h => key 3 (by decide) (Option.some.inj h)
  · rw [show (defaultKeyMappings vk).lookup "rstick_left" = some vk.VK_J by
      simp [defaultKeyMappings, List.lookup]]
    exact fun h => key 4 (by decide) (Option.some.inj h)
  · rw [show (defaultKeyMappings vk).lookup "rstick_right" = some vk.VK_L by
      simp [defaultKeyMappings, List.lookup]]
    exact fun h => key 5 (by decide) (Option.some.inj h)
  · rw [show (defaultKeyMappings vk).lookup "rstick_up" = some vk.VK_I by
      simp [defaultKeyMappings, List.lookup]]
    exact fun h => key 6 (by decide) (Option.some.inj h)
  · rw [show (defaultKeyMappings vk).lookup "rstick_down" = none by
      simp [defaultKeyMappings, List.lookup]]
    exact fun h => Option.noConfusion h
  · rw [show (defaultKeyMappings vk).lookup "lt" = none by
      simp [defaultKeyMappings, List.lookup]]
    exact fun h => Option.noConfusion h
  · rw [show (defaultKeyMappings vk).lookup "rt" = none by
      simp [defaultKeyMappings, List.lookup]]
    exact fun h => Option.noConfusion h

/-- A call of `updateKeyState` on a name that does not map to `k` sends no event
for `k` and leaves the entry of `k` as it was. -/
theorem updateKeyState_untouched (j : Joystick2Keyboard) (name : String) (p : Bool) (k : Int)
    (h : j.keyMappings.lookup name ≠ some k) :
    eventsFor k (updateKeyState j name p).kb = eventsFor k j.kb ∧
    (updateKeyState j name p).buttonStates k = j.buttonStates k := by
  cases hl : j.keyMappings.lookup name with
  | none => rw [updateKeyState_unmapped j name p hl]; exact ⟨rfl, rfl⟩
  | some key =>
    have hne : k ≠ key := fun e => h (by rw [hl, e])
    obtain ⟨⟨evs, hkb, -, hev⟩, hst⟩ := updateKeyState_frame j name key p hl
    refine ⟨?_, hst k hne⟩
    rw [hkb, eventsFor_append]
    have : eventsFor k evs = [] := by
      unfold eventsFor
      rw [List.filter_eq_nil_iff]
      intro e he
      rw [hev e he]
      simpa using fun e' => hne e'.symm
    rw [this, List.append_nil]

theorem applyRequests_untouched (j : Joystick2Keyboard) (reqs : List (String × Bool)) (k : Int)
    (h : ∀ r ∈ reqs, j.keyMappings.lookup r.1 ≠ some k) :
    eventsFor k (applyRequests j reqs).kb = eventsFor k j.kb ∧
    (applyRequests j reqs).buttonStates k = j.buttonStates k := by
  induction reqs generalizing j with
  | nil => exact ⟨rfl, rfl⟩
  | cons r rest ih =>
    rw [applyRequests_cons]
    obtain ⟨h1, h2⟩ := updateKeyState_untouched j r.1 r.2 k (h r (List.mem_cons_self _ _))
    obtain ⟨h3, h4⟩ := ih (updateKeyState j r.1 r.2) (fun r' hr' => by
      rw [updateKeyState_keyMappings]; exact h r' (List.mem_cons_of_mem _ hr'))
    exact ⟨h3.trans h1, h4.trans h2⟩

theorem layoutRequests_names (b : Nat) : (layoutRequests b).map Prod.fst = bitLayout := rfl

/-- The loop body of `Run` in `j2k.go` is a run of `updateKeyState` calls on
names of the pipeline: it sends no event for a key that no such name maps to,
leaves the entry of that key, and leaves `keyMappings`. -/
theorem runCycle_untouched (j : Joystick2Keyboard) (buffer : List Nat) (r : ReadResult)
    (k : Int) (h : ∀ name ∈ pipelineNames, j.keyMappings.lookup name ≠ some k) :
    eventsFor k (runCycle j buffer r).1.kb = eventsFor k j.kb ∧
    (runCycle j buffer r).1.buttonStates k = j.buttonStates k ∧
    (runCycle j buffer r).1.keyMappings = j.keyMappings := by
  cases herr : r.err with
  | some err =>
    have e : (runCycle j buffer r).1 = j := by simp only [runCycle, herr]
    rw [e]; exact ⟨rfl, rfl, rfl⟩
  | none =>
    by_cases hn : r.data.length < 14
    · have e : (runCycle j buffer r).1 = j := by simp only [runCycle, herr, hn, if_true]
      rw [e]; exact ⟨rfl, rfl, rfl⟩
    · rw [runCycle_full_read j buffer r herr (by omega)]
      generalize decodeState (readInto buffer r) = st
      have hB : ∀ q ∈ layoutRequests st.buttons, j.keyMappings.lookup q.1 ≠ some k := by
        intro q hq
        apply h
        have hmem : q.1 ∈ (layoutRequests st.buttons).map Prod.fst := List.mem_map_of_mem _ hq
        rw [layoutRequests_names] at hmem
        revert hmem
        generalize q.1 = nm
        simp only [bitLayout, pipelineNames, List.mem_cons, List.mem_singleton,
          List.not_mem_nil, or_false]
        tauto
      rw [processButtons_eq_layout]
      set j1 := applyRequests j (layoutRequests st.buttons) with hj1
      have k1 : j1.keyMappings = j.keyMappings := applyRequests_keyMappings _ _
      obtain ⟨a1, b1⟩ := applyRequests_untouched j _ k hB
      rw [processLeftStick_eq_intents]
      set j2 := applyRequests j1 _ with hj2
      have k2 : j2.keyMappings = j.keyMappings := (applyRequests_keyMappings _ _).trans k1
      obtain ⟨a2, b2⟩ := applyRequests_untouched j1
        [("lstick_left", (stickIntents j1.deadzone (normalizeAxis st.leftX)
            (normalizeAxis st.leftY)).left),
         ("lstick_right", (stickIntents j1.deadzone (normalizeAxis st.leftX)
            (normalizeAxis st.leftY)).right),
         ("lstick_up", (stickIntents j1.deadzone (normalizeAxis st.leftX)
            (normalizeAxis st.leftY)).up),
         ("lstick_down", (stickIntents j1.deadzone (normalizeAxis st.leftX)
            (normalizeAxis st.leftY)).down)] k (by
          intro q hq
          rw [k1]
          apply h
          simp only [List.mem_cons, List.mem_singleton, List.not_mem_nil, or_false] at hq
          rcases hq with rfl | rfl | rfl | rfl <;> simp [pipelineNames])
      rw [processRightStick_eq_intents]
      set j3 := applyRequests j2 _ with hj3
      have k3 : j3.keyMappings = j.keyMappings := (applyRequests_keyMappings _ _).trans k2
      obtain ⟨a3, b3⟩ := applyRequests_untouched j2
        [("rstick_left", (stickIntents j2.deadzone (normalizeAxis st.rightX)
            (normalizeAxis st.rightY)).left),
         ("rstick_right", (stickIntents j2.deadzone (normalizeAxis st.rightX)
            (normalizeAxis st.rightY)).right),
         ("rstick_up", (stickIntents j2.deadzone (normalizeAxis st.rightX)
            (normalizeAxis st.rightY)).up),
         ("rstick_down", (stickIntents j2.deadzone (normalizeAxis st.rightX)
            (normalizeAxis st.rightY)).down)] k (by
          intro q hq
          rw [k2]
          apply h
          simp only [List.mem_cons, List.mem_singleton, List.not_mem_nil, or_false] at hq
          rcases hq with rfl | rfl | rfl | rfl <;> simp [pipelineNames])
      obtain ⟨a4, b4⟩ := updateKeyState_untouched j3 "lt" (triggerPressed st.trigL) k (by
        rw [k3]; exact h _ (by simp [pipelineNames]))
      have k4 : (updateKeyState j3 "lt" (triggerPressed st.trigL)).keyMappings
          = j.keyMappings := (updateKeyState_keyMappings _ _ _).trans k3
      obtain ⟨a5, b5⟩ := updateKeyState_untouched
        (updateKeyState j3 "lt" (triggerPressed st.trigL)) "rt" (triggerPressed st.trigR) k (by
        rw [k4]; exact h _ (by simp [pipelineNames]))
      refine ⟨?_, ?_, (updateKeyState_keyMappings _ _ _).trans k4⟩
      · rw [a5, a4, a3, a2, a1]
      · rw [b5, b4, b3, b2, b1]

theorem stopStep_untouched (j : Joystick2Keyboard) (key k : Int)
    (hk : j.buttonStates k = some false) :
    eventsFor k (stopStep j key).kb = eventsFor k j.kb ∧
    (stopStep j key).buttonStates k = some false := by
  by_cases hp : j.buttonStates key = some true
  · have hne : k ≠ key := by
      intro e
      rw [e, hp] at hk
      exact Bool.noConfusion (Option.some.inj hk)
    rw [stopStep_of_pressed j key hp]
    refine ⟨?_, ?_⟩
    · show eventsFor k (j.kb ++ [KeyEvent.release key]) = _
      rw [eventsFor_append]
      have hne2 : key ≠ k := fun e => hne e.symm
      simp [eventsFor, KeyEvent.key, hne2]
    · show (j.buttonStates.set key false) k = some false
      simp [ButtonStates.set, hne, hk]
  · rw [stopStep_of_not_pressed j key hp]
    exact ⟨rfl, hk⟩

theorem Stop_untouched (j : Joystick2Keyboard) (order : List Int) (k : Int)
    (hk : j.buttonStates k = some false) :
    eventsFor k (Stop j order).kb = eventsFor k j.kb ∧
    (Stop j order).buttonStates k = some false := by
  have gen : ∀ (j0 : Joystick2Keyboard), j0.buttonStates k = some false →
      eventsFor k (order.foldl stopStep j0).kb = eventsFor k j0.kb ∧
      (order.foldl stopStep j0).buttonStates k = some false := by
    induction order with
    | nil => intro j0 h0; exact ⟨rfl, h0⟩
    | cons a rest ih =>
      intro j0 h0
      obtain ⟨h1, h2⟩ := stopStep_untouched j0 a k h0
      obtain ⟨h3, h4⟩ := ih (stopStep j0 a) h2
      rw [List.foldl_cons]
      exact ⟨h3.trans h1, h4⟩
  exact gen { j with running := false } hk

theorem runSteps_append (s : Joystick2Keyboard × List Nat) (steps : List Step) (t : Step) :
    runSteps s (steps ++ [t]) = Step.apply (runSteps s steps) t := by
  simp [runSteps, List.foldl_append]

/-- C17. With pairwise distinct key codes, after any finite sequence of poll
cycles of `Run` in `j2k.go` (on any reports) and `Stop` calls from the state
built by the constructor, no press and no release was sent for `VK_K`, `VK_R`,
`VK_T`, `VK_Y` or `VK_U`, and their entries in `buttonStates` are false: the names
that the pipeline uses for them, `rstick_down`, `lb`, `rb`, `l3`, `r3`, `lt`, `rt`, are
not keys of `keyMappings`, which has `rsdown`, `lbutton`, `rbutton`, `lstick_click`,
`rstick_click`, `ltrigger`, `rtrigger`. -/
theorem unreachable_keys (vk : keybd_event) (hvk : vk.Distinct) (buffer : List Nat)
    (steps : List Step) (k : Int)
    (hk : k ∈ [vk.VK_K, vk.VK_R, vk.VK_T, vk.VK_Y, vk.VK_U]) :
    eventsFor k (runSteps (initialState vk, buffer) steps).1.kb = [] ∧
    (runSteps (initialState vk, buffer) steps).1.buttonStates k = some false ∧
    (∀ name ∈ ["rstick_down", "lb", "rb", "l3", "r3", "lt", "rt"],
      (initialState vk).keyMappings.lookup name = none) ∧
    (initialState vk).keyMappings.lookup "rsdown" = some vk.VK_K ∧
    (initialState vk).keyMappings.lookup "lbutton" = some vk.VK_T ∧
    (initialState vk).keyMappings.lookup "rbutton" = some vk.VK_R ∧
    (initialState vk).keyMappings.lookup "lstick_click" = some vk.VK_L ∧
    (initialState vk).keyMappings.lookup "rstick_click" = some vk.VK_R ∧
    (initialState vk).keyMappings.lookup "ltrigger" = some vk.VK_U ∧
    (initialState vk).keyMappings.lookup "rtrigger" = some vk.VK_Y := by
  have inv : (runSteps (initialState vk, buffer) steps).1.keyMappings = defaultKeyMappings vk ∧
      eventsFor k (runSteps (initialState vk, buffer) steps).1.kb = [] ∧
      (runSteps (initialState vk, buffer) steps).1.buttonStates k = some false := by
    induction steps using List.reverseRecOn with
    | nil =>
      refine ⟨rfl, rfl, ?_⟩
      show initButtonStates (defaultKeyMappings vk) k = some false
      rw [initButtonStates_apply, if_pos]
      simp only [List.mem_cons, List.mem_singleton, List.not_mem_nil, or_false] at hk
      rcases hk with rfl | rfl | rfl | rfl | rfl <;> simp [defaultKeyMappings]
    | append_singleton steps t ih =>
      obtain ⟨i1, i2, i3⟩ := ih
      rw [runSteps_append]
      cases t with
      | poll r =>
        obtain ⟨h1, h2, h3⟩ := runCycle_untouched (runSteps (initialState vk, buffer) steps).1
          (runSteps (initialState vk, buffer) steps).2 r k (by
            intro name hname
            rw [i1]
            exact pipeline_lookup_ne vk hvk k hk name hname)
        exact ⟨h3.trans i1, h1.trans i2, h2.trans i3⟩
      | Stop order =>
        obtain ⟨h1, h2⟩ := Stop_untouched (runSteps (initialState vk, buffer) steps).1 order k i3
        exact ⟨(Stop_keyMappings _ _).trans i1, h1.trans i2, h2⟩
  refine ⟨inv.2.1, inv.2.2, ?_, lookup_rsdown vk, ?_, lookup_rbutton vk, lookup_lstick_click vk,
    lookup_rstick_click vk, ?_, ?_⟩
  · intro name hname
    simp only [List.mem_cons, List.mem_singleton, List.not_mem_nil, or_false] at hname
    rcases hname with rfl | rfl | rfl | rfl | rfl | rfl | rfl <;>
      simp [initialState, defaultKeyMappings, List.lookup]
  · simp [initialState, defaultKeyMappings, List.lookup]
  · simp [initialState, defaultKeyMappings, List.lookup]
  · simp [initialState, defaultKeyMappings, List.lookup]

theorem unreachable_keys_witness :
    eventsFor 37 (runSteps (initialState linuxKeys, List.replicate 64 0)
      [Step.poll ⟨[0, 63, 0, 0, 255, 127, 0, 0, 255, 127, 255, 255, 0, 0], none⟩,
       Step.Stop [30, 32, 17, 31, 36, 23, 37, 103, 108, 105, 106, 57, 18, 16, 33, 20, 21, 22,
         15, 28, 38, 19]]).1.kb = [] ∧
    (runSteps (initialState linuxKeys, List.replicate 64 0)
      [Step.poll ⟨[0, 63, 0, 0, 255, 127, 0, 0, 255, 127, 255, 255, 0, 0], none⟩,
       Step.Stop [30, 32, 17, 31, 36, 23, 37, 103, 108, 105, 106, 57, 18, 16, 33, 20, 21, 22,
         15, 28, 38, 19]]).1.buttonStates 37 = some false :=
  have h := unreachable_keys linuxKeys (by decide) (List.replicate 64 0)
    [Step.poll ⟨[0, 63, 0, 0, 255, 127, 0, 0, 255, 127, 255, 255, 0, 0], none⟩,
     Step.Stop [30, 32, 17, 31, 36, 23, 37, 103, 108, 105, 106, 57, 18, 16, 33, 20, 21, 22,
       15, 28, 38, 19]] 37 (by decide)
  ⟨h.1, h.2.1⟩

/-! ## The decoder of `emulator.go` -/

theorem emulator_decodeState_fields (buffer : List Nat) (hb : IsBytes buffer) :
    Emulator.decodeState buffer =
      { buttons := buffer.getD 10 0 + 256 * buffer.getD 11 0
        leftX := int16 (buffer.getD 2 0 + 256 * buffer.getD 3 0)
        leftY := int16 (buffer.getD 4 0 + 256 * buffer.getD 5 0)
        rightX := int16 (buffer.getD 6 0 + 256 * buffer.getD 7 0)
        rightY := int16 (buffer.getD 8 0 + 256 * buffer.getD 9 0)
        trigL := buffer.getD 10 0
        trigR := buffer.getD 11 0 } := by
  unfold Emulator.decodeState
  rw [show (10 + 0 : Nat) = 10 from rfl, show (10 + 2 : Nat) = 10 + 2 from rfl,
    uint16_slice buffer hb 10, uint16_slice buffer hb 2, uint16_slice buffer hb 4,
    uint16_slice buffer hb 6, uint16_slice buffer hb 8]

theorem testBit_low_byte (a b i : Nat) (ha : a < 256) (hi : i < 8) :
    (a + 256 * b).testBit i = a.testBit i := by
  have h := Nat.testBit_mul_pow_two_add b (i := 8) (b := a) (by simpa using ha) i
  rw [if_pos hi] at h
  rw [← h]
  congr 1
  norm_num
  ring

theorem emulator_processButtons_eq_bits (e : Emulator.Joystick2Keyboard) (b : Nat) :
    Emulator.processButtons e b =
      Emulator.updateKeyState (Emulator.updateKeyState (Emulator.updateKeyState
        (Emulator.updateKeyState e "dpad_up" (b.testBit 0)) "dpad_down" (b.testBit 1))
        "dpad_left" (b.testBit 2)) "dpad_right" (b.testBit 3) := by
  have h0 : ((b &&& 1) != 0) = b.testBit 0 := and_bit_ne_zero b 0
  have h1 : ((b &&& 2) != 0) = b.testBit 1 := and_bit_ne_zero b 1
  have h2 : ((b &&& 4) != 0) = b.testBit 2 := and_bit_ne_zero b 2
  have h3 : ((b &&& 8) != 0) = b.testBit 3 := and_bit_ne_zero b 3
  simp only [Emulator.processButtons, h0, h1, h2, h3]

/-- C19. In `emulator.go` the decoded `buttons` is `trigL + 256 * trigR`, because
`buttons` is read little-endian from `buffer[10:12]` and the triggers from
`buffer[10]` and `buffer[11]`, where `buffer` is `fullbuffer[10:]`. Hence the four
d-pad bits that `processButtons` looks at are the low four bits of the left
trigger byte. -/
theorem emulator_buttons_are_triggers (e : Emulator.Joystick2Keyboard) (fullbuffer : List Nat)
    (hb : IsBytes fullbuffer) :
    (Emulator.decodeState (fullbuffer.drop 10)).buttons
      = (Emulator.decodeState (fullbuffer.drop 10)).trigL
        + 256 * (Emulator.decodeState (fullbuffer.drop 10)).trigR ∧
    (Emulator.decodeState (fullbuffer.drop 10)).trigL = fullbuffer.getD 20 0 ∧
    (Emulator.decodeState (fullbuffer.drop 10)).trigR = fullbuffer.getD 21 0 ∧
    (∀ i, i < 4 → (Emulator.decodeState (fullbuffer.drop 10)).buttons.testBit i
      = (Emulator.decodeState (fullbuffer.drop 10)).trigL.testBit i) ∧
    Emulator.processButtons e (Emulator.decodeState (fullbuffer.drop 10)).buttons
      = Emulator.processButtons e (Emulator.decodeState (fullbuffer.drop 10)).trigL := by
  have hb2 : IsBytes (fullbuffer.drop 10) := fun x hx => hb x (List.mem_of_mem_drop hx)
  have hf := emulator_decodeState_fields (fullbuffer.drop 10) hb2
  have hlt := hb2.getD_lt 10
  have hbits : ∀ i, i < 4 → (Emulator.decodeState (fullbuffer.drop 10)).buttons.testBit i
      = (Emulator.decodeState (fullbuffer.drop 10)).trigL.testBit i := by
    intro i hi
    rw [hf]
    exact testBit_low_byte _ _ i hlt (by omega)
  refine ⟨by rw [hf], ?_, ?_, hbits, ?_⟩
  · rw [hf]; simp [List.getD_eq_getElem?_getD]
  · rw [hf]; simp [List.getD_eq_getElem?_getD]
  · rw [emulator_processButtons_eq_bits, emulator_processButtons_eq_bits,
      hbits 0 (by omega), hbits 1 (by omega), hbits 2 (by omega), hbits 3 (by omega)]

theorem emulator_buttons_are_triggers_witness :
    (Emulator.decodeState
        ((List.replicate 20 0 ++ [5, 2] ++ List.replicate 42 0).drop 10)).buttons
      = (Emulator.decodeState
          ((List.replicate 20 0 ++ [5, 2] ++ List.replicate 42 0).drop 10)).trigL
        + 256 * (Emulator.decodeState
          ((List.replicate 20 0 ++ [5, 2] ++ List.replicate 42 0).drop 10)).trigR ∧
    (Emulator.decodeState
        ((List.replicate 20 0 ++ [5, 2] ++ List.replicate 42 0).drop 10)).buttons = 517 :=
  ⟨(emulator_buttons_are_triggers (Emulator.initialState linuxKeys)
      (List.replicate 20 0 ++ [5, 2] ++ List.replicate 42 0) (by decide)).1, by decide⟩

/-- With 22 bytes read, the decoder of `emulator.go` reads bytes of the
current read only. -/
theorem emulator_decode_of_full_read (fullbuffer : List Nat) (r : ReadResult)
    (herr : r.err = none) (hn : 22 ≤ r.data.length) :
    Emulator.decodeState ((readInto fullbuffer r).drop 10)
      = Emulator.decodeState (r.data.drop 10) := by
  have hget : ∀ i, i < 12 →
      ((readInto fullbuffer r).drop 10).getD i 0 = (r.data.drop 10).getD i 0 := by
    intro i hi
    simp only [readInto, herr, List.getD_eq_getElem?_getD, List.getElem?_drop]
    rw [List.getElem?_append_left (by omega)]
  have hslice : ∀ lo hi, lo ≤ hi → hi ≤ 12 →
      slice ((readInto fullbuffer r).drop 10) lo hi = slice (r.data.drop 10) lo hi := by
    intro lo hi hlo hhi
    simp only [readInto, herr, slice, List.drop_drop]
    rw [List.drop_append_of_le_length (by omega), List.take_append_of_le_length]
    simp only [List.length_drop]
    omega
  unfold Emulator.decodeState
  rw [hslice _ _ (by omega) (by omega), hslice 2 4 (by omega) (by omega),
    hslice 4 6 (by omega) (by omega), hslice 6 8 (by omega) (by omega),
    hslice 8 10 (by omega) (by omega), hget 10 (by omega), hget 11 (by omega)]

/-- C16. In `emulator.go` a read of 14 bytes passes the size check, yet the
decoder reads `fullbuffer[12]` to `fullbuffer[21]`. After a first read of 22
bytes with byte 20 set to 1 (d-pad up, which sends a press of `VK_UP`), a
second read of 14 zero bytes decodes `buttons = 1` from the bytes that the
first read left, sends no release and leaves `VK_UP` pressed; the same read
into a zeroed buffer decodes `buttons = 0`. -/
theorem emulator_decodes_stale_bytes :
    (Emulator.runCycle (Emulator.initialState linuxKeys) (List.replicate 64 0)
        ⟨List.replicate 20 0 ++ [1, 0], none⟩).1.kb = [KeyEvent.press linuxKeys.VK_UP] ∧
    (Emulator.runCycle
        (Emulator.runCycle (Emulator.initialState linuxKeys) (List.replicate 64 0)
          ⟨List.replicate 20 0 ++ [1, 0], none⟩).1
        (Emulator.runCycle (Emulator.initialState linuxKeys) (List.replicate 64 0)
          ⟨List.replicate 20 0 ++ [1, 0], none⟩).2
        ⟨List.replicate 14 0, none⟩).1.kb = [KeyEvent.press linuxKeys.VK_UP] ∧
    (Emulator.runCycle
        (Emulator.runCycle (Emulator.initialState linuxKeys) (List.replicate 64 0)
          ⟨List.replicate 20 0 ++ [1, 0], none⟩).1
        (Emulator.runCycle (Emulator.initialState linuxKeys) (List.replicate 64 0)
          ⟨List.replicate 20 0 ++ [1, 0], none⟩).2
        ⟨List.replicate 14 0, none⟩).1.buttonStates.get linuxKeys.VK_UP = true ∧
    (Emulator.decodeState ((readInto
        (Emulator.runCycle (Emulator.initialState linuxKeys) (List.replicate 64 0)
          ⟨List.replicate 20 0 ++ [1, 0], none⟩).2
        ⟨List.replicate 14 0, none⟩).drop 10)).buttons = 1 ∧
    (Emulator.decodeState ((readInto (List.replicate 64 0)
        ⟨List.replicate 14 0, none⟩).drop 10)).buttons = 0 := by
  refine ⟨by decide, by decide, by decide, by decide, by decide⟩

/-! ## The deadzone -/

theorem lookup_rstick_left (vk : keybd_event) :
    (defaultKeyMappings vk).lookup "rstick_left" = some vk.VK_J := by
  simp [defaultKeyMappings, List.lookup]

theorem lookup_rstick_up (vk : keybd_event) :
    (defaultKeyMappings vk).lookup "rstick_up" = some vk.VK_I := by
  simp [defaultKeyMappings, List.lookup]

/-- C9, as the code has it. When the normalized magnitude of the axis pair is
below the deadzone 0.2, `processLeftStick` and `processRightStick` request false
for the four directions of their stick. Hence from a state with every key
released they change nothing (no event is sent); from any state no key that
read as released reads as pressed afterwards; and from any state every key
that a direction name of the stick is mapped to reads as released afterwards,
which with the table of the constructor are `VK_A`, `VK_D`, `VK_W`, `VK_S` for the
left stick and `VK_J`, `VK_L`, `VK_I` for the right stick. -/
theorem sticks_in_deadzone (vk : keybd_event) (j : Joystick2Keyboard) (x y : Int)
    (hd : j.deadzone = 0.2)
    (hmag : Real.sqrt (((x : ℝ) / 32768) ^ 2 + ((y : ℝ) / 32768) ^ 2) < 0.2) :
    processLeftStick j (normalizeAxis x) (normalizeAxis y)
      = applyRequests j [("lstick_left", false), ("lstick_right", false),
          ("lstick_up", false), ("lstick_down", false)] ∧
    processRightStick j (normalizeAxis x) (normalizeAxis y)
      = applyRequests j [("rstick_left", false), ("rstick_right", false),
          ("rstick_up", false), ("rstick_down", false)] ∧
    ((∀ k, j.buttonStates.get k = false) →
      processLeftStick j (normalizeAxis x) (normalizeAxis y) = j ∧
      processRightStick j (normalizeAxis x) (normalizeAxis y) = j) ∧
    (∀ k, j.buttonStates.get k = false →
      (processLeftStick j (normalizeAxis x) (normalizeAxis y)).buttonStates.get k = false ∧
      (processRightStick j (normalizeAxis x) (normalizeAxis y)).buttonStates.get k = false) ∧
    (∀ name ∈ ["lstick_left", "lstick_right", "lstick_up", "lstick_down"], ∀ k,
      j.keyMappings.lookup name = some k →
      (processLeftStick j (normalizeAxis x) (normalizeAxis y)).buttonStates.get k = false) ∧
    (∀ name ∈ ["rstick_left", "rstick_right", "rstick_up", "rstick_down"], ∀ k,
      j.keyMappings.lookup name = some k →
      (processRightStick j (normalizeAxis x) (normalizeAxis y)).buttonStates.get k = false) ∧
    (j.keyMappings = defaultKeyMappings vk →
      (processLeftStick j (normalizeAxis x) (normalizeAxis y)).buttonStates.get vk.VK_A = false ∧
      (processLeftStick j (normalizeAxis x) (normalizeAxis y)).buttonStates.get vk.VK_D = false ∧
      (processLeftStick j (normalizeAxis x) (normalizeAxis y)).buttonStates.get vk.VK_W = false ∧
      (processLeftStick j (normalizeAxis x) (normalizeAxis y)).buttonStates.get vk.VK_S = false ∧
      (processRightStick j (normalizeAxis x) (normalizeAxis y)).buttonStates.get vk.VK_J = false ∧
      (processRightStick j (normalizeAxis x) (normalizeAxis y)).buttonStates.get vk.VK_L = false ∧
      (processRightStick j (normalizeAxis x) (normalizeAxis y)).buttonStates.get vk.VK_I
        = false) := by
  have hlt : Real.sqrt (normalizeAxis x * normalizeAxis x + normalizeAxis y * normalizeAxis y)
      < (j.deadzone : ℝ) := by
    rw [magnitude_normalizeAxis, hd]
    norm_num at hmag ⊢
    exact hmag
  have hL := processLeftStick_in_deadzone j _ _ hlt
  have hR := processRightStick_in_deadzone j _ _ hlt
  have hallL : ∀ r ∈ [("lstick_left", false), ("lstick_right", false), ("lstick_up", false),
      ("lstick_down", false)], r.2 = false := by decide
  have hallR : ∀ r ∈ [("rstick_left", false), ("rstick_right", false), ("rstick_up", false),
      ("rstick_down", false)], r.2 = false := by decide
  have relL : ∀ name ∈ ["lstick_left", "lstick_right", "lstick_up", "lstick_down"], ∀ k,
      j.keyMappings.lookup name = some k →
      (processLeftStick j (normalizeAxis x) (normalizeAxis y)).buttonStates.get k = false := by
    intro name hname k hl
    rw [hL]
    exact applyRequests_false_releases j _ hallL name k hname hl
  have relR : ∀ name ∈ ["rstick_left", "rstick_right", "rstick_up", "rstick_down"], ∀ k,
      j.keyMappings.lookup name = some k →
      (processRightStick j (normalizeAxis x) (normalizeAxis y)).buttonStates.get k = false := by
    intro name hname k hl
    rw [hR]
    exact applyRequests_false_releases j _ hallR name k hname hl
  refine ⟨hL, hR, fun hrel => ?_, fun k hk => ?_, relL, relR, fun hkm => ?_⟩
  · rw [hL, hR]
    exact ⟨applyRequests_false_of_all_released j _ hallL hrel,
      applyRequests_false_of_all_released j _ hallR hrel⟩
  · rw [hL, hR]
    exact ⟨applyRequests_false_keeps_released j _ hallL k hk,
      applyRequests_false_keeps_released j _ hallR k hk⟩
  · exact ⟨relL "lstick_left" (by decide) _ (by rw [hkm]; exact lookup_lstick_left vk),
      relL "lstick_right" (by decide) _ (by rw [hkm]; exact lookup_lstick_right vk),
      relL "lstick_up" (by decide) _ (by rw [hkm]; exact lookup_lstick_up vk),
      relL "lstick_down" (by decide) _ (by rw [hkm]; exact lookup_lstick_down vk),
      relR "rstick_left" (by decide) _ (by rw [hkm]; exact lookup_rstick_left vk),
      relR "rstick_right" (by decide) _ (by rw [hkm]; exact lookup_rstick_right vk),
      relR "rstick_up" (by decide) _ (by rw [hkm]; exact lookup_rstick_up vk)⟩

theorem sticks_in_deadzone_witness :
    (processLeftStick (initialState linuxKeys) (normalizeAxis 1000) (normalizeAxis 1000)
      = initialState linuxKeys ∧
     processRightStick (initialState linuxKeys) (normalizeAxis 1000) (normalizeAxis 1000)
      = initialState linuxKeys) ∧
    (applyRequests (initialState linuxKeys)
        [("lstick_left", true), ("lstick_down", true), ("rstick_up", true),
         ("rstick_right", true)]).buttonStates.get linuxKeys.VK_A = true ∧
    (processLeftStick (applyRequests (initialState linuxKeys)
        [("lstick_left", true), ("lstick_down", true), ("rstick_up", true),
         ("rstick_right", true)])
      (normalizeAxis 1000) (normalizeAxis 1000)).buttonStates.get linuxKeys.VK_A = false ∧
    (processLeftStick (applyRequests (initialState linuxKeys)
        [("lstick_left", true), ("lstick_down", true), ("rstick_up", true),
         ("rstick_right", true)])
      (normalizeAxis 1000) (normalizeAxis 1000)).buttonStates.get linuxKeys.VK_S = false ∧
    (processRightStick (applyRequests (initialState linuxKeys)
        [("lstick_left", true), ("lstick_down", true), ("rstick_up", true),
         ("rstick_right", true)])
      (normalizeAxis 1000) (normalizeAxis 1000)).buttonStates.get linuxKeys.VK_I = false ∧
    (processRightStick (applyRequests (initialState linuxKeys)
        [("lstick_left", true), ("lstick_down", true), ("rstick_up", true),
         ("rstick_right", true)])
      (normalizeAxis 1000) (normalizeAxis 1000)).buttonStates.get linuxKeys.VK_L = false :=
  have h0 := sticks_in_deadzone linuxKeys (initialState linuxKeys) 1000 1000 rfl
    ((Real.sqrt_lt' (by norm_num)).mpr (by norm_num))
  have h1 := sticks_in_deadzone linuxKeys
    (applyRequests (initialState linuxKeys)
      [("lstick_left", true), ("lstick_down", true), ("rstick_up", true),
       ("rstick_right", true)])
    1000 1000 rfl ((Real.sqrt_lt' (by norm_num)).mpr (by norm_num))
  have h2 := h1.2.2.2.2.2.2 (applyRequests_keyMappings _ _)
  ⟨h0.2.2.1 (fun k => initButtonStates_get _ k), by decide, h2.1, h2.2.2.2.1,
    h2.2.2.2.2.2.2, h2.2.2.2.2.2.1⟩

/-- C9, as it is written, fails on the code. In the state reached by
`updateKeyState("rsdown", true)` the key `VK_K`, which the table lists under the
right stick, is pressed; the axis pair (1000, 1000) is inside the deadzone;
and after `processRightStick` on it `VK_K` still reads as pressed and no
event was sent. -/
theorem sticks_in_deadzone_counterexample :
    (initialState linuxKeys).keyMappings.lookup "rsdown" = some linuxKeys.VK_K ∧
    (applyRequests (initialState linuxKeys) [("rsdown", true)]).deadzone = 0.2 ∧
    Real.sqrt ((((1000 : Int) : ℝ) / 32768) ^ 2 + (((1000 : Int) : ℝ) / 32768) ^ 2) < 0.2 ∧
    (applyRequests (initialState linuxKeys) [("rsdown", true)]).buttonStates.get
      linuxKeys.VK_K = true ∧
    (processRightStick (applyRequests (initialState linuxKeys) [("rsdown", true)])
      (normalizeAxis 1000) (normalizeAxis 1000)).buttonStates.get linuxKeys.VK_K = true ∧
    (processRightStick (applyRequests (initialState linuxKeys) [("rsdown", true)])
      (normalizeAxis 1000) (normalizeAxis 1000)).kb = [KeyEvent.press linuxKeys.VK_K] ∧
    ¬ (∀ (j : Joystick2Keyboard) (x y : Int), j.deadzone = 0.2 →
        j.keyMappings = defaultKeyMappings linuxKeys →
        Real.sqrt (((x : ℝ) / 32768) ^ 2 + ((y : ℝ) / 32768) ^ 2) < 0.2 →
        ∀ k ∈ [linuxKeys.VK_I, linuxKeys.VK_J, linuxKeys.VK_K, linuxKeys.VK_L],
          (processRightStick j (normalizeAxis x) (normalizeAxis y)).buttonStates.get k
            = false) := by
  have hmag : Real.sqrt ((((1000 : Int) : ℝ) / 32768) ^ 2 + (((1000 : Int) : ℝ) / 32768) ^ 2)
      < 0.2 := (Real.sqrt_lt' (by norm_num)).mpr (by norm_num)
  have hlt : Real.sqrt (normalizeAxis 1000 * normalizeAxis 1000
      + normalizeAxis 1000 * normalizeAxis 1000)
      < ((applyRequests (initialState linuxKeys) [("rsdown", true)]).deadzone : ℝ) := by
    rw [magnitude_normalizeAxis]
    show _ < (((0.2 : ℚ)) : ℝ)
    norm_num at hmag ⊢
    exact hmag
  have hR := processRightStick_in_deadzone
    (applyRequests (initialState linuxKeys) [("rsdown", true)]) _ _ hlt
  have hget : (processRightStick (applyRequests (initialState linuxKeys) [("rsdown", true)])
      (normalizeAxis 1000) (normalizeAxis 1000)).buttonStates.get linuxKeys.VK_K = true := by
    rw [hR]; decide
  refine ⟨by decide, rfl, hmag, by decide, hget, by rw [hR]; decide, fun hall => ?_⟩
  have hfalse := hall (applyRequests (initialState linuxKeys) [("rsdown", true)]) 1000 1000 rfl
    (applyRequests_keyMappings _ _) hmag linuxKeys.VK_K (by decide)
  rw [hget] at hfalse
  exact Bool.noConfusion hfalse

end J2K
